import Mathlib

/-!
# Plugin HTTP handlers of `pkg/api/plugins.go`

A shallow embedding of the request handlers of `pkg/api/plugins.go` and of the
standard-library path functions they call, followed by the theorems about them.

Conventions of the embedding.

* A Go `error` is a chain of error values (`GoError`): the value itself and what
  `Unwrap` yields, outermost first.  `errors.Is` and `errors.As` walk that chain.
  A `nil` error is `none` (or the `ok` side of `Except`).
* A `response.Response` is the call of the `response` package that built it
  (`Response.Error`, `Response.JSON`, ...), with the arguments of the call.
* The collaborators injected into `HTTPServer` (plugin store, settings store,
  bus, backend plugin client, file system) are function-valued fields: the
  handlers are proved correct for every behaviour of the collaborators.
* Go strings are modelled by `String`; the path functions work on the list of
  characters, each standing for one unit of the Go string.  Only `/` and `.`
  are ever inspected, as in the Go code.
-/

namespace Grafana

/-! ## Errors -/

/-- The error values the handlers distinguish.  The first group are the sentinel
errors compared with `errors.Is`; the second group are the struct error types
extracted with `errors.As`; `other` is any error value the handlers do not know. -/
inductive ErrorValue where
  | ErrPluginNotRegistered
  | ErrMethodNotImplemented
  | ErrHealthCheckFailed
  | ErrPluginUnavailable
  | ErrPluginSettingNotFound
  | ErrInstallCorePlugin
  | DuplicateError (detail : String)
  | ErrVersionUnsupported (detail : String)
  | ErrVersionNotFound (detail : String)
  | Response4xxError (Message : String) (StatusCode : Int) (SystemInfo : String)
  | NotFoundError (PluginID : String)
  | other (text : String)
  deriving DecidableEq, Repr

/-- A non-nil Go error: an error value, possibly wrapping another error. -/
inductive GoError where
  | leaf (value : ErrorValue)
  | wrap (value : ErrorValue) (inner : GoError)
  deriving DecidableEq, Repr

/-- The chain `err, Unwrap(err), Unwrap(Unwrap(err)), ...`. -/
def GoError.chain : GoError → List ErrorValue
  | .leaf v => [v]
  | .wrap v inner => v :: inner.chain

/-- Go `errors.Is(err, target)`: some error of the chain equals the target. -/
def errorsIs : GoError → ErrorValue → Bool
  | .leaf v, target => v == target
  | .wrap v inner, target => v == target || errorsIs inner target

/-- Go `errors.As(err, &target)`: the first error of the chain that has the
type of the target; `sel` recognises that type and extracts the value. -/
def errorsAs {α : Type} (sel : ErrorValue → Option α) : GoError → Option α
  | .leaf v => sel v
  | .wrap v inner =>
    match sel v with
    | some a => some a
    | none => errorsAs sel inner

/-- Recogniser of `plugins.DuplicateError`. -/
def asDuplicateError : ErrorValue → Option String
  | .DuplicateError d => some d
  | _ => none

/-- Recogniser of `installer.ErrVersionUnsupported`. -/
def asErrVersionUnsupported : ErrorValue → Option String
  | .ErrVersionUnsupported d => some d
  | _ => none

/-- Recogniser of `installer.ErrVersionNotFound`. -/
def asErrVersionNotFound : ErrorValue → Option String
  | .ErrVersionNotFound d => some d
  | _ => none

/-- The fields of `installer.Response4xxError` the handlers read. -/
structure Response4xxError where
  Message : String
  StatusCode : Int
  SystemInfo : String
  deriving DecidableEq, Repr

/-- Recogniser of `installer.Response4xxError`. -/
def asResponse4xxError : ErrorValue → Option Response4xxError
  | .Response4xxError m s i => some ⟨m, s, i⟩
  | _ => none

/-- Recogniser of `plugins.NotFoundError`; yields the `PluginID`. -/
def asNotFoundError : ErrorValue → Option String
  | .NotFoundError id => some id
  | _ => none

/-! ## Responses -/

/-- The message of an error response: a literal of the source, or the text an
error value's `Error()` method returns (that method is outside the excerpt). -/
inductive Message where
  | lit (text : String)
  | errorOf (value : ErrorValue)
  deriving DecidableEq, Repr

/-- A `response.Response`, recorded as the call that built it.  `β` is the type
of the body handed to `response.JSON`. -/
inductive Response (β : Type) where
  | Error (status : Int) (message : Message) (err : Option GoError)
  | JSON (status : Int) (body : β)
  | Success (message : String)
  | Respond (status : Int) (content : String) (header : List (String × String))

/-- HTTP status of a response (`response.Success` answers 200). -/
def Response.status {β : Type} : Response β → Int
  | .Error s _ _ => s
  | .JSON s _ => s
  | .Success _ => 200
  | .Respond s _ _ => s

/-- The method `SetHeader` on a response built by `response.Respond`. -/
def Response.SetHeader {β : Type} (key value : String) : Response β → Response β
  | .Respond s c h => .Respond s c (h ++ [(key, value)])
  | r => r

/-! ## `translatePluginRequestErrorToAPIError` -/

/-- Translation of `translatePluginRequestErrorToAPIError` (plugins.go 454-472). -/
def translatePluginRequestErrorToAPIError {β : Type} (err : GoError) : Response β :=
  if errorsIs err .ErrPluginNotRegistered then
    .Error 404 (.lit "Plugin not found") (some err)
  else if errorsIs err .ErrMethodNotImplemented then
    .Error 404 (.lit "Not found") (some err)
  else if errorsIs err .ErrHealthCheckFailed then
    .Error 500 (.lit "Plugin health check failed") (some err)
  else if errorsIs err .ErrPluginUnavailable then
    .Error 503 (.lit "Plugin unavailable") (some err)
  else
    .Error 500 (.lit "Plugin request failed") (some err)

/-! ## Data model of the handlers -/

/-- The fields and methods of `plugins.Plugin` that plugins.go reads.  `Info`,
`Dependencies` and `Includes` are carried through unread, so they are kept as
uninterpreted text.  `Type_` is the field `Type`.  `IsCorePlugin` and `IsApp`
hold what the methods of the same name return for this plugin (their bodies are
outside the excerpt). -/
structure Plugin where
  ID : String
  Name : String
  Type_ : String
  Category : String
  Info : String
  Dependencies : String
  Includes : String
  BaseURL : String
  Module : String
  GrafanaComVersion : String
  GrafanaComHasUpdate : Bool
  DefaultNavURL : String
  State : String
  Signature : String
  SignatureType : String
  SignatureOrg : String
  IncludedInAppID : String
  BuiltIn : Bool
  AutoEnabled : Bool
  PluginDir : String
  IsCorePlugin : Bool
  IsApp : Bool
  deriving DecidableEq, Repr

/-- Modelled from the spec: the constant `plugins.AlphaRelease`, the release
state the spec calls alpha; its declaration is outside the excerpt. -/
def AlphaRelease : String := "alpha"

/-- The type `dtos.PluginListItem` with the fields GetPluginList sets. -/
structure PluginListItem where
  Name : String
  Type_ : String
  Id : String
  Enabled : Bool
  Pinned : Bool
  Info : String
  Dependencies : String
  LatestVersion : String
  HasUpdate : Bool
  DefaultNavUrl : String
  Category : String
  State : String
  Signature : String
  SignatureType : String
  SignatureOrg : String
  deriving DecidableEq, Repr

/-- An uninterpreted decoded JSON object (`map[string]interface{}`). -/
structure JsonMap where
  text : String
  deriving DecidableEq, Repr

/-- The fields of a stored plugin setting (`models.PluginSettingInfoDTO`,
`models.PluginSetting`) that the handlers read. -/
structure PluginSetting where
  Enabled : Bool
  Pinned : Bool
  JsonData : Option JsonMap
  deriving DecidableEq, Repr

/-- The roles of `models.RoleType`. -/
inductive RoleType where
  | ROLE_VIEWER
  | ROLE_EDITOR
  | ROLE_ADMIN
  deriving DecidableEq, Repr

/-- The parts of `models.ReqContext` the handlers read: the organisation, the
signed-in user (uninterpreted), the query parameters (`c.Query`, empty when absent), the route parameters
(`web.Params(c.Req)`, empty when absent) and the role check `c.HasRole`. -/
structure ReqContext where
  OrgId : Int
  SignedInUser : String
  Query : String → String
  Params : String → String
  HasRole : RoleType → Bool

/-- The settings `hs.Cfg` that plugins.go reads. -/
structure Cfg where
  PluginsEnableAlpha : Bool
  AppSubURL : String
  deriving DecidableEq, Repr

/-- The plugin store `hs.pluginStore`: the installed plugins, the lookup by ID,
and `Add` (which returns an error or nil). -/
structure PluginStore where
  Plugins : List Plugin
  Plugin : String → Option Plugin
  Add : String → String → Option GoError

/-- An uninterpreted `backend.PluginContext`. -/
structure PluginContext where
  PluginID : String
  OrgID : Int
  deriving DecidableEq, Repr

/-- The result type `backend.CheckHealthResult`; `Status` is the integer-valued
`backend.HealthStatus`, `JSONDetails` the raw bytes of the details. -/
structure CheckHealthResult where
  Status : Int
  Message : String
  JSONDetails : String
  deriving DecidableEq, Repr

/-- The constant `backend.HealthStatusOk` of the plugin SDK. -/
def HealthStatusOk : Int := 1

/-- The provider `hs.PluginContextProvider`: `Get pluginID datasourceUID user
skipCache` yields an error, or the context when the plugin was found. -/
structure PluginContextProvider where
  Get : String → String → String → Bool → Except GoError (Option PluginContext)

/-- The backend plugin client `hs.pluginClient`. -/
structure PluginClient where
  CheckHealth : PluginContext → Except GoError CheckHealthResult

/-- The `HTTPServer` fields used by the handlers.  `pluginSettings orgId` is the
method `hs.pluginSettings` (outside the excerpt): an error, or the map from
plugin ID to the organisation's setting. -/
structure HTTPServer where
  Cfg : Cfg
  pluginStore : PluginStore
  pluginSettings : Int → Except GoError (String → Option PluginSetting)
  PluginContextProvider : PluginContextProvider
  pluginClient : PluginClient

/-- The command `models.UpdatePluginSettingCmd` (declared outside the excerpt):
the fields bound from the request body, and `PluginId` and `OrgId`. -/
structure UpdatePluginSettingCmd where
  Enabled : Bool
  Pinned : Bool
  JsonData : Option JsonMap
  SecureJsonData : List (String × String)
  PluginVersion : String
  PluginId : String
  OrgId : Int
  deriving DecidableEq, Repr

/-- The two messages plugins.go sends over the bus with `bus.DispatchCtx`: the
query `models.GetPluginSettingByIdQuery` (by PluginId and OrgId; the `ok` side
is `query.Result`) and the command `models.UpdatePluginSettingCmd`. -/
structure Bus where
  GetPluginSettingByIdQuery : String → Int → Except GoError PluginSetting
  UpdatePluginSettingCmd : UpdatePluginSettingCmd → Option GoError

/-- The type `dtos.PluginSetting` with the fields GetPluginSettingByID sets. -/
structure PluginSettingDto where
  Name : String
  Type_ : String
  Id : String
  Enabled : Bool
  Pinned : Bool
  Module : String
  BaseUrl : String
  Info : String
  Includes : String
  Dependencies : String
  JsonData : Option JsonMap
  DefaultNavUrl : String
  LatestVersion : String
  HasUpdate : Bool
  State : String
  Signature : String
  SignatureType : String
  SignatureOrg : String
  deriving DecidableEq, Repr

/-- The payload map of CheckHealth: the keys "status" and "message", and the
key "details" when `details` is `some`; the value under "details" is the
decoded map, which is the nil map (`none`) after decoding the JSON value null. -/
structure HealthPayload where
  status : String
  message : String
  details : Option (Option JsonMap)
  deriving DecidableEq, Repr

/-- The body `dtos.InstallPluginCommand`. -/
structure InstallPluginCommand where
  Version : String
  deriving DecidableEq, Repr

/-! ## `sort.Sort` -/

/-- Insertion of one element into a sorted list, after the elements that are
not greater. -/
def sortInsert {α : Type} (less : α → α → Bool) (x : α) : List α → List α
  | [] => [x]
  | y :: ys => if less x y then x :: y :: ys else y :: sortInsert less x ys

/-- Go `sort.Sort` for a slice whose `Less(i, j)` is `less slice[i] slice[j]`,
as an insertion sort.  Go does not promise the order of equal elements; the
theorems below use only that the result is a rearrangement of the input. -/
def sortSort {α : Type} (less : α → α → Bool) : List α → List α
  | [] => []
  | x :: xs => sortInsert less x (sortSort less xs)

/-! ## `GetPluginList` -/

/-- The list item GetPluginList builds for a plugin (plugins.go 65-88): the
struct literal, then the organisation's setting, then the default of
`DefaultNavUrl`. -/
def buildListItem (hs : HTTPServer) (pluginSettingsMap : String → Option PluginSetting)
    (pluginDef : Plugin) : PluginListItem :=
  let listItem : PluginListItem :=
    { Id := pluginDef.ID
      Name := pluginDef.Name
      Type_ := pluginDef.Type_
      Category := pluginDef.Category
      Info := pluginDef.Info
      Dependencies := pluginDef.Dependencies
      LatestVersion := pluginDef.GrafanaComVersion
      HasUpdate := pluginDef.GrafanaComHasUpdate
      DefaultNavUrl := pluginDef.DefaultNavURL
      State := pluginDef.State
      Signature := pluginDef.Signature
      SignatureType := pluginDef.SignatureType
      SignatureOrg := pluginDef.SignatureOrg
      Enabled := false
      Pinned := false }
  let listItem :=
    match pluginSettingsMap pluginDef.ID with
    | some pluginSetting =>
      { listItem with Enabled := pluginSetting.Enabled, Pinned := pluginSetting.Pinned }
    | none => listItem
  if listItem.DefaultNavUrl == "" || !listItem.Enabled then
    { listItem with DefaultNavUrl := hs.Cfg.AppSubURL ++ "/plugins/" ++ listItem.Id ++ "/" }
  else listItem

/-- One iteration of the loop of GetPluginList (plugins.go 45-101): `none` is
`continue`, `some item` is the item appended to `result`. -/
def pluginListLoopBody (hs : HTTPServer) (pluginSettingsMap : String → Option PluginSetting)
    (typeFilter enabledFilter embeddedFilter coreFilter : String) (pluginDef : Plugin) :
    Option PluginListItem :=
  -- filter out app sub plugins
  if embeddedFilter == "0" && pluginDef.IncludedInAppID != "" then none
  -- filter out core plugins
  else if (coreFilter == "0" && pluginDef.IsCorePlugin)
      || (coreFilter == "1" && !pluginDef.IsCorePlugin) then none
  -- filter on type
  else if typeFilter != "" && typeFilter != pluginDef.Type_ then none
  else if pluginDef.State == AlphaRelease && !hs.Cfg.PluginsEnableAlpha then none
  else
    let listItem := buildListItem hs pluginSettingsMap pluginDef
    -- filter out disabled plugins
    if enabledFilter == "1" && !listItem.Enabled then none
    -- filter out built in plugins
    else if pluginDef.BuiltIn then none
    else some listItem

/-- The loop of GetPluginList: `result` grows by `append`. -/
def pluginListLoop (hs : HTTPServer) (pluginSettingsMap : String → Option PluginSetting)
    (typeFilter enabledFilter embeddedFilter coreFilter : String) :
    List Plugin → List PluginListItem → List PluginListItem
  | [], result => result
  | pluginDef :: rest, result =>
    match pluginListLoopBody hs pluginSettingsMap typeFilter enabledFilter embeddedFilter
        coreFilter pluginDef with
    | none => pluginListLoop hs pluginSettingsMap typeFilter enabledFilter embeddedFilter
        coreFilter rest result
    | some listItem => pluginListLoop hs pluginSettingsMap typeFilter enabledFilter
        embeddedFilter coreFilter rest (result ++ [listItem])

/-- Translation of `GetPluginList` (plugins.go 28-105).  `Less` is the order of
`dtos.PluginList` (declared outside the excerpt). -/
def GetPluginList (Less : PluginListItem → PluginListItem → Bool) (hs : HTTPServer)
    (c : ReqContext) : Response (List PluginListItem) :=
  let typeFilter := c.Query "type"
  let enabledFilter := c.Query "enabled"
  let embeddedFilter := c.Query "embedded"
  let coreFilter := c.Query "core"
  -- For users with viewer role we only return core plugins
  let coreFilter := if !c.HasRole .ROLE_ADMIN then "1" else coreFilter
  match hs.pluginSettings c.OrgId with
  | .error err => .Error 500 (.lit "Failed to get list of plugins") (some err)
  | .ok pluginSettingsMap =>
    let result := pluginListLoop hs pluginSettingsMap typeFilter enabledFilter embeddedFilter
      coreFilter hs.pluginStore.Plugins []
    .JSON 200 (sortSort Less result)

/-- The filter of GetPluginList in the words of the specification: the plugin
is listed when none of the filters removes it.  `core` is forced to "1" for
users without the admin role. -/
def specListed (hs : HTTPServer) (c : ReqContext)
    (pluginSettingsMap : String → Option PluginSetting) (p : Plugin) : Bool :=
  let core := if c.HasRole .ROLE_ADMIN then c.Query "core" else "1"
  let hasEnabledSetting :=
    match pluginSettingsMap p.ID with
    | some s => s.Enabled
    | none => false
  !(c.Query "embedded" == "0" && p.IncludedInAppID != "")
  && !(core == "0" && p.IsCorePlugin) && !(core == "1" && !p.IsCorePlugin)
  && (c.Query "type" == "" || c.Query "type" == p.Type_)
  && (p.State != AlphaRelease || hs.Cfg.PluginsEnableAlpha)
  && !(c.Query "enabled" == "1" && !hasEnabledSetting)
  && !p.BuiltIn

/-- The request with one query parameter replaced. -/
def ReqContext.withQuery (c : ReqContext) (key value : String) : ReqContext :=
  { c with Query := fun k => if k = key then value else c.Query k }

/-! ## `GetPluginSettingByID` and `UpdatePluginSetting` -/

/-- Translation of `GetPluginSettingByID` (plugins.go 107-150). -/
def GetPluginSettingByID (bus : Bus) (hs : HTTPServer) (c : ReqContext) :
    Response PluginSettingDto :=
  let pluginID := c.Params ":pluginId"
  match hs.pluginStore.Plugin pluginID with
  | none => .Error 404 (.lit "Plugin not found, no installed plugin with that id") none
  | some plugin =>
    let dto : PluginSettingDto :=
      { Type_ := plugin.Type_
        Id := plugin.ID
        Name := plugin.Name
        Info := plugin.Info
        Dependencies := plugin.Dependencies
        Includes := plugin.Includes
        BaseUrl := plugin.BaseURL
        Module := plugin.Module
        DefaultNavUrl := plugin.DefaultNavURL
        LatestVersion := plugin.GrafanaComVersion
        HasUpdate := plugin.GrafanaComHasUpdate
        State := plugin.State
        Signature := plugin.Signature
        SignatureType := plugin.SignatureType
        SignatureOrg := plugin.SignatureOrg
        Enabled := false
        Pinned := false
        JsonData := none }
    let dto :=
      if plugin.IsApp then { dto with Enabled := plugin.AutoEnabled, Pinned := plugin.AutoEnabled }
      else dto
    match bus.GetPluginSettingByIdQuery pluginID c.OrgId with
    | .error err =>
      if !errorsIs err .ErrPluginSettingNotFound then
        .Error 500 (.lit "Failed to get login settings") none
      else .JSON 200 dto
    | .ok result =>
      .JSON 200 { dto with Enabled := result.Enabled, Pinned := result.Pinned,
                           JsonData := result.JsonData }

/-- The call `bus.DispatchCtx(ctx, &cmd)` for an `UpdatePluginSettingCmd`: the
command is handed to the handler of the bus, whose answer is the error or nil,
and the command is appended to the list of the commands dispatched so far. -/
def DispatchCtx (bus : Bus) (cmd : UpdatePluginSettingCmd)
    (dispatched : List UpdatePluginSettingCmd) :
    Option GoError × List UpdatePluginSettingCmd :=
  (bus.UpdatePluginSettingCmd cmd, dispatched ++ [cmd])

/-- Translation of `UpdatePluginSetting` (plugins.go 152-166).  The second
component is the list of the commands dispatched over the bus; it starts empty
and only `DispatchCtx` extends it. -/
def UpdatePluginSetting (bus : Bus) (hs : HTTPServer) (c : ReqContext)
    (cmd : UpdatePluginSettingCmd) : Response Unit × List UpdatePluginSettingCmd :=
  let pluginID := c.Params ":pluginId"
  match hs.pluginStore.Plugin pluginID with
  | none => (.Error 404 (.lit "Plugin not installed") none, [])
  | some _ =>
    let cmd := { cmd with OrgId := c.OrgId }
    let cmd := { cmd with PluginId := pluginID }
    match DispatchCtx bus cmd [] with
    | (some err, dispatched) =>
      (.Error 500 (.lit "Failed to update plugin setting") (some err), dispatched)
    | (none, dispatched) => (.Success "Plugin settings updated", dispatched)

/-! ## `CheckHealth` -/

/-- The white space of the JSON grammar: space, tab, carriage return, line feed. -/
def isJSONSpace (c : Char) : Bool :=
  c == ' ' || c == Char.ofNat 9 || c == Char.ofNat 13 || c == Char.ofNat 10

/-- The text is the JSON value null, possibly surrounded by JSON white space. -/
def isJSONNull (data : String) : Bool :=
  ((data.data.dropWhile isJSONSpace).reverse.dropWhile isJSONSpace).reverse
    == ['n', 'u', 'l', 'l']

/-- Go `json.Unmarshal(data, &jsonDetails)` for a `var jsonDetails
map[string]interface{}`.  The JSON value null is no error and leaves the map
nil (`none`), as the package documents.  Every other text is handed to
`decodeObject`, which stands for the decoder of the library on such texts: the
decoded object, or the error for a text that is not a JSON object. -/
def jsonUnmarshal (decodeObject : String → Except GoError JsonMap) (data : String) :
    Except GoError (Option JsonMap) :=
  if isJSONNull data then .ok none
  else
    match decodeObject data with
    | .error err => .error err
    | .ok object => .ok (some object)

/-- Translation of `CheckHealth` (plugins.go 338-379).  `statusString` is the
method `HealthStatus.String` of the plugin SDK and `decodeObject` the object
decoder of `json.Unmarshal` (see `jsonUnmarshal`). -/
def CheckHealth (statusString : Int → String) (decodeObject : String → Except GoError JsonMap)
    (hs : HTTPServer) (c : ReqContext) : Response HealthPayload :=
  let pluginID := c.Params ":pluginId"
  match hs.PluginContextProvider.Get pluginID "" c.SignedInUser false with
  | .error err => .Error 500 (.lit "Failed to get plugin settings") (some err)
  | .ok none => .Error 404 (.lit "Plugin not found") none
  | .ok (some pCtx) =>
    match hs.pluginClient.CheckHealth pCtx with
    | .error err => translatePluginRequestErrorToAPIError err
    | .ok resp =>
      let payload : HealthPayload :=
        { status := statusString resp.Status, message := resp.Message, details := none }
      -- Unmarshal JSONDetails if it is not empty; an error returns at once.
      let unmarshalled : Except (Response HealthPayload) HealthPayload :=
        if resp.JSONDetails.length > 0 then
          match jsonUnmarshal decodeObject resp.JSONDetails with
          | .error err =>
            .error (.Error 500
              (.lit "Failed to unmarshal detailed response from backend plugin") (some err))
          | .ok jsonDetails => .ok { payload with details := some jsonDetails }
        else .ok payload
      match unmarshalled with
      | .error r => r
      | .ok payload =>
        if resp.Status != HealthStatusOk then .JSON 503 payload
        else .JSON 200 payload

/-! ## `InstallPlugin` -/

/-- The status constants of `net/http` that plugins.go names. -/
def StatusOK : Int := 200

/-- See `StatusOK`. -/
def StatusForbidden : Int := 403

/-- See `StatusOK`. -/
def StatusNotFound : Int := 404

/-- See `StatusOK`. -/
def StatusConflict : Int := 409

/-- See `StatusOK`. -/
def StatusInternalServerError : Int := 500

/-- Translation of `InstallPlugin` (plugins.go 403-432).  The body of the
success response is the empty byte slice. -/
def InstallPlugin (hs : HTTPServer) (c : ReqContext) (dto : InstallPluginCommand) :
    Response String :=
  let pluginID := c.Params ":pluginId"
  match hs.pluginStore.Add pluginID dto.Version with
  | some err =>
    match errorsAs asDuplicateError err with
    | some _ => .Error StatusConflict (.lit "Plugin already installed") (some err)
    | none =>
    match errorsAs asErrVersionUnsupported err with
    | some _ => .Error StatusConflict (.lit "Plugin version not supported") (some err)
    | none =>
    match errorsAs asErrVersionNotFound err with
    | some _ => .Error StatusNotFound (.lit "Plugin version not found") (some err)
    | none =>
    match errorsAs asResponse4xxError err with
    | some clientError => .Error clientError.StatusCode (.lit clientError.Message) (some err)
    | none =>
    if errorsIs err .ErrInstallCorePlugin then
      .Error StatusForbidden (.lit "Cannot install or change a Core plugin") (some err)
    else
      .Error StatusInternalServerError (.lit "Failed to install plugin") (some err)
  | none => .JSON StatusOK ""

/-! ## The path functions of Go `path/filepath` (Unix) -/

/-- Go `os.IsPathSeparator` on Unix. -/
def IsPathSeparator (c : Char) : Bool := c == '/'

/-- The test `r+k == n || os.IsPathSeparator(path[r+k])` of `Clean`, on the
bytes of the path from position `r+k` on. -/
def atEndOrSeparator : List Char → Bool
  | [] => true
  | c :: _ => IsPathSeparator c

/-- The loop `for out.w > dotdot && !os.IsPathSeparator(out.index(out.w)) { out.w-- }`
of `Clean`.  The buffer `buf[0:w]` is held reversed (last byte first); `last`
is `buf[w]`, the byte dropped last. -/
def backtrackLoop (dotdot : Nat) : List Char → Char → List Char
  | [], _ => []
  | c :: out, last =>
    if (c :: out).length > dotdot && !IsPathSeparator last then backtrackLoop dotdot out c
    else c :: out

/-- The statement `out.w--` followed by the loop `backtrackLoop`. -/
def backtrack (dotdot : Nat) : List Char → List Char
  | [] => []
  | last :: out => backtrackLoop dotdot out last

/-- The loop `for ; r < n && !os.IsPathSeparator(path[r]); r++ { out.append(path[r]) }`
of `Clean`: yields the rest of the path and the buffer (held reversed). -/
def copyElement : List Char → List Char → List Char × List Char
  | [], out => ([], out)
  | c :: rest, out =>
    if IsPathSeparator c then (c :: rest, out) else copyElement rest (c :: out)

/-- The main loop `for r < n` of `Clean`.  `path` holds the bytes from position
`r` on, `out` the buffer `buf[0:w]` reversed; the first argument bounds the
number of iterations (every iteration consumes at least one byte). -/
def cleanLoop (rooted : Bool) : Nat → List Char → List Char → Nat → List Char
  | 0, _, out, _ => out
  | _ + 1, [], out, _ => out
  | fuel + 1, c :: rest, out, dotdot =>
    if IsPathSeparator c then
      -- empty path element
      cleanLoop rooted fuel rest out dotdot
    else if c == '.' && atEndOrSeparator rest then
      -- . element
      cleanLoop rooted fuel rest out dotdot
    else if c == '.' && rest.head? == some '.' && atEndOrSeparator (rest.drop 1) then
      -- .. element: remove to last separator
      if out.length > dotdot then
        -- can backtrack
        cleanLoop rooted fuel (rest.drop 1) (backtrack dotdot out) dotdot
      else if !rooted then
        -- cannot backtrack, but not rooted, so append .. element.
        let out := if out.length > 0 then '/' :: out else out
        let out := '.' :: '.' :: out
        cleanLoop rooted fuel (rest.drop 1) out out.length
      else
        cleanLoop rooted fuel (rest.drop 1) out dotdot
    else
      -- real path element: add slash if needed, copy element
      let out :=
        if (rooted && out.length != 1) || (!rooted && out.length != 0) then '/' :: out else out
      let copied := copyElement (c :: rest) out
      cleanLoop rooted fuel copied.1 copied.2 dotdot

/-- Go `filepath.Clean` on Unix (no volume name, `FromSlash` is the identity),
on the bytes of the path. -/
def cleanChars (path : List Char) : List Char :=
  match path with
  | [] => ['.']
  | c :: rest =>
    let rooted := IsPathSeparator c
    let out :=
      if rooted then cleanLoop true (c :: rest).length rest ['/'] 1
      else cleanLoop false (c :: rest).length (c :: rest) [] 0
    -- Turn empty string into "."
    let out := if out.length == 0 then ['.'] else out
    out.reverse

/-- Go `filepath.Clean`. -/
def Clean (path : String) : String := ⟨cleanChars path.data⟩

/-- Go `strings.Join`. -/
def stringsJoin (sep : String) : List String → String
  | [] => ""
  | [a] => a
  | a :: rest => a ++ sep ++ stringsJoin sep rest

/-- Go `filepath.Join` on Unix: the elements from the first non-empty one on
are joined with the separator and cleaned; the result is empty when every
element is empty. -/
def Join : List String → String
  | [] => ""
  | e :: rest => if e != "" then Clean (stringsJoin "/" (e :: rest)) else Join rest

/-- Go `filepath.IsAbs` on Unix. -/
def IsAbs (path : String) : Bool := path.data.head? == some '/'

/-- Go `filepath.Abs` on Unix; `getwd` is the result of `os.Getwd`. -/
def Abs (getwd : Except GoError String) (path : String) : Except GoError String :=
  if IsAbs path then .ok (Clean path)
  else
    match getwd with
    | .error err => .error err
    | .ok wd => .ok (Join [wd, path])

/-- The slice `s[i:j]`. -/
def slice (s : List Char) (i j : Nat) : List Char := (s.take j).drop i

/-- The loop `for i < len(s) && s[i] != Separator { i++ }` of `Rel`: the index
it stops at. -/
def scanElement (s : List Char) (i : Nat) : Nat :=
  i + ((s.drop i).takeWhile (fun c => c != '/')).length

/-- The loop of `Rel` that positions `base[b0:bi]` and `targ[t0:ti]` at the
first differing elements; the first argument bounds the number of iterations.
The result is `(b0, bi, t0, ti)`. -/
def relLoop (base targ : List Char) : Nat → Nat → Nat → Nat → Nat → Nat × Nat × Nat × Nat
  | 0, b0, bi, t0, ti => (b0, bi, t0, ti)
  | fuel + 1, b0, bi, t0, ti =>
    if bi < base.length && ti < targ.length then
      let bi := scanElement base bi
      let ti := scanElement targ ti
      if slice targ t0 ti != slice base b0 bi then (b0, bi, t0, ti)
      else
        let bi := if bi < base.length then bi + 1 else bi
        let ti := if ti < targ.length then ti + 1 else ti
        relLoop base targ fuel bi bi ti ti
    else (b0, bi, t0, ti)

/-- Go `filepath.Rel` on Unix (no volume names, `sameWord` is equality), on the
bytes of the paths; `none` is the error that the target cannot be made relative
to the base. -/
def relChars (basepath targpath : List Char) : Option (List Char) :=
  let base := cleanChars basepath
  let targ := cleanChars targpath
  if targ == base then some ['.']
  else
    let base := if base == ['.'] then [] else base
    -- Can't use IsAbs - `\a` and `a` are both relative in Windows.
    let baseSlashed := base.head? == some '/'
    let targSlashed := targ.head? == some '/'
    if baseSlashed != targSlashed then none
    else
      let bl := base.length
      let tl := targ.length
      match relLoop base targ (bl + 1) 0 0 0 0 with
      | (b0, bi, t0, _) =>
        if slice base b0 bi == ['.', '.'] then none
        else if b0 != bl then
          -- Base elements left. Must go up before going down.
          let seps := (slice base b0 bl).count '/'
          let buf := ['.', '.'] ++ (List.replicate seps ['/', '.', '.']).flatten
          let buf := if t0 != tl then buf ++ '/' :: targ.drop t0 else buf
          some buf
        else some (targ.drop t0)

/-- Go `filepath.Rel`; the error is reported as the error value `other`. -/
def Rel (basepath targpath : String) : Except GoError String :=
  match relChars basepath.data targpath.data with
  | some rel => .ok ⟨rel⟩
  | none =>
    .error (.leaf (.other ("Rel: can't make " ++ targpath ++ " relative to " ++ basepath)))

/-! ## Clean rooted paths -/

/-- A path element that `Clean` keeps: non-empty, without separator, and
neither "." nor "..". -/
def ProperElement (e : List Char) : Prop :=
  e ≠ [] ∧ '/' ∉ e ∧ e ≠ ['.'] ∧ e ≠ ['.', '.']

/-- The bytes "/e1/e2/.../en" of the elements, each preceded by a separator. -/
def slashed : List (List Char) → List Char
  | [] => []
  | e :: es => '/' :: e ++ slashed es

/-- The rooted path with the given elements: "/" when there is none. -/
def rootedPath : List (List Char) → List Char
  | [] => ['/']
  | e :: es => slashed (e :: es)

/-- The relative path with the given elements: "." when there is none. -/
def relativePath : List (List Char) → List Char
  | [] => ['.']
  | e :: es => e ++ slashed es

/-- The elements of a path: the pieces between the separators. -/
def pathElements : List Char → List (List Char)
  | [] => [[]]
  | c :: rest =>
    if c = '/' then [] :: pathElements rest
    else
      match pathElements rest with
      | [] => [[c]]
      | e :: es => (c :: e) :: es

/-- Go `strings.HasPrefix`. -/
def hasPrefix (s pre : String) : Bool := pre.data.isPrefixOf s.data

/-! ## `getPluginAssets` -/

/-- What `getPluginAssets` does with a request: it answers with `c.JsonApiErr`,
or it goes on to `os.Open(pluginFilePath)` and serves what it finds there. -/
inductive AssetsOutcome where
  | JsonApiErr (status : Int) (message : String) (err : Option GoError)
  | Open (pluginFilePath : String)
  deriving DecidableEq, Repr

/-- Translation of `getPluginAssets` (plugins.go 276-336) up to the call of
`os.Open`.  `getwd` is the result of `os.Getwd`, which `filepath.Abs` calls for
a relative plugin directory.  The warning logged for a file outside the plugin
signature does not alter the control flow and is left out. -/
def getPluginAssets (getwd : Except GoError String) (hs : HTTPServer) (c : ReqContext) :
    AssetsOutcome :=
  let pluginID := c.Params ":pluginId"
  match hs.pluginStore.Plugin pluginID with
  | none => .JsonApiErr 404 "Plugin not found" none
  | some plugin =>
    -- prepend slash for cleaning relative paths
    let requestedFile := Clean (Join ["/", c.Params "*"])
    match Rel "/" requestedFile with
    | .error err =>
      -- slash is prepended above therefore this is not expected to fail
      .JsonApiErr 500 "Failed to get the relative path" (some err)
    | .ok rel =>
      match Abs getwd plugin.PluginDir with
      | .error _ => .JsonApiErr 500 "Failed to get plugin absolute path" none
      | .ok absPluginDir =>
        let pluginFilePath := Join [absPluginDir, rel]
        .Open pluginFilePath

/-! ## `GetPluginMarkdown` -/

/-- The file system calls of `pluginMarkdown`: `fs.Exists` and `ioutil.ReadFile`. -/
structure FileSystem where
  Exists : String → Except GoError Bool
  ReadFile : String → Except GoError String

/-- Translation of `mdFilepath` (plugins.go 510-512). -/
def mdFilepath (mdFilename : String) : String :=
  Clean (Join ["/", mdFilename ++ ".md"])

/-- Translation of `pluginMarkdown` (plugins.go 474-508).  `ToUpper` and
`ToLower` are `strings.ToUpper` and `strings.ToLower`. -/
def pluginMarkdown (ToUpper ToLower : String → String) (fs : FileSystem) (hs : HTTPServer)
    (pluginId name : String) : Except GoError String :=
  match hs.pluginStore.Plugin pluginId with
  | none => .error (.leaf (.NotFoundError pluginId))
  | some plugin =>
    let path := Join [plugin.PluginDir, mdFilepath (ToUpper name)]
    match fs.Exists path with
    | .error err => .error err
    | .ok found =>
      let path :=
        if !found then Join [plugin.PluginDir, mdFilepath (ToLower name)] else path
      match fs.Exists path with
      | .error err => .error err
      | .ok found =>
        if !found then .ok ""
        else
          match fs.ReadFile path with
          | .error err => .error err
          | .ok data => .ok data

/-- Translation of `GetPluginMarkdown` (plugins.go 184-209).  The second
component lists the names `pluginMarkdown` was called with, in order. -/
def GetPluginMarkdown (ToUpper ToLower : String → String) (fs : FileSystem) (hs : HTTPServer)
    (c : ReqContext) : Response String × List String :=
  let pluginID := c.Params ":pluginId"
  let name := c.Params ":name"
  match pluginMarkdown ToUpper ToLower fs hs pluginID name with
  | .error err =>
    match errorsAs asNotFoundError err with
    | some id => (.Error 404 (.errorOf (.NotFoundError id)) none, [name])
    | none => (.Error 500 (.lit "Could not get markdown file") (some err), [name])
  | .ok content =>
    -- fallback try readme
    if content.length == 0 then
      match pluginMarkdown ToUpper ToLower fs hs pluginID "readme" with
      | .error err =>
        (.Error 501 (.lit "Could not get markdown file") (some err), [name, "readme"])
      | .ok content =>
        ((Response.Respond 200 content []).SetHeader "Content-Type" "text/plain; charset=utf-8",
          [name, "readme"])
    else
      ((Response.Respond 200 content []).SetHeader "Content-Type" "text/plain; charset=utf-8",
        [name])

/-! ## Sample data for the worked instances -/

/-- A sample panel plugin with the given ID and navigation URL; `core` is what
`IsCorePlugin` returns for it and `builtIn` its field `BuiltIn`. -/
def samplePlugin (id nav : String) (core builtIn : Bool) : Plugin :=
  { ID := id, Name := id, Type_ := "panel", Category := "", Info := "", Dependencies := "",
    Includes := "", BaseURL := "", Module := "", GrafanaComVersion := "",
    GrafanaComHasUpdate := false, DefaultNavURL := nav, State := "", Signature := "",
    SignatureType := "", SignatureOrg := "", IncludedInAppID := "", BuiltIn := builtIn,
    AutoEnabled := false, PluginDir := "/var/lib/plugins/" ++ id, IsCorePlugin := core,
    IsApp := false }

/-- A sample store: a core plugin, an external plugin, and a built-in core plugin. -/
def sampleStore : PluginStore :=
  { Plugins := [samplePlugin "graph" "" true false, samplePlugin "clock" "/a/clock" false false,
      samplePlugin "mixed" "" true true]
    Plugin := fun id =>
      if id = "graph" then some (samplePlugin "graph" "" true false)
      else if id = "clock" then some (samplePlugin "clock" "/a/clock" false false)
      else none
    Add := fun _ _ => none }

/-- Sample settings: the organisation enabled and pinned the plugin "clock". -/
def sampleSettings : String → Option PluginSetting :=
  fun id => if id = "clock" then some ⟨true, true, none⟩ else none

/-- A sample server over the sample store and settings. -/
def sampleServer : HTTPServer :=
  { Cfg := { PluginsEnableAlpha := false, AppSubURL := "" }
    pluginStore := sampleStore
    pluginSettings := fun _ => .ok sampleSettings
    PluginContextProvider := { Get := fun id _ _ _ => .ok (some ⟨id, 1⟩) }
    pluginClient := { CheckHealth := fun _ => .ok ⟨1, "running", ""⟩ } }

/-- A sample request of a viewer asking for the non-core plugins (`core=0`). -/
def viewerRequest : ReqContext :=
  { OrgId := 1
    SignedInUser := "user"
    Query := fun k => if k = "core" then "0" else ""
    Params := fun _ => ""
    HasRole := fun r => decide (r = .ROLE_VIEWER) }

/-- A sample request of an admin with `embedded=1`, `enabled=0` and `core=2`. -/
def adminRequest : ReqContext :=
  { OrgId := 1
    SignedInUser := "user"
    Query := fun k =>
      if k = "embedded" then "1" else if k = "enabled" then "0" else if k = "core" then "2"
      else ""
    Params := fun _ => ""
    HasRole := fun _ => true }

/-- A sample plugin whose own navigation URL is the default URL of its ID. -/
def navPlugin : Plugin := samplePlugin "clock" "/plugins/clock/" false false

/-- A sample server with the single plugin `navPlugin` and no stored setting. -/
def navServer : HTTPServer :=
  { Cfg := { PluginsEnableAlpha := false, AppSubURL := "" }
    pluginStore := { Plugins := [navPlugin], Plugin := fun _ => none, Add := fun _ _ => none }
    pluginSettings := fun _ => .ok (fun _ => none)
    PluginContextProvider := { Get := fun _ _ _ _ => .ok none }
    pluginClient := { CheckHealth := fun _ => .ok ⟨1, "", ""⟩ } }

/-- A sample bus: the organisation has a stored setting for "clock" only. -/
def sampleBus : Bus :=
  { GetPluginSettingByIdQuery := fun id _ =>
      if id = "clock" then .ok ⟨true, false, some ⟨"\x7b\x7d"⟩⟩
      else .error (.leaf .ErrPluginSettingNotFound)
    UpdatePluginSettingCmd := fun _ => none }

/-- A sample admin request for the plugin "clock" (`:pluginId` = "clock"). -/
def clockRequest : ReqContext :=
  { OrgId := 7
    SignedInUser := "user"
    Query := fun _ => ""
    Params := fun k => if k = ":pluginId" then "clock" else ""
    HasRole := fun _ => true }

/-- A sample command body that names another organisation and another plugin. -/
def foreignCmd : UpdatePluginSettingCmd :=
  { Enabled := true, Pinned := true, JsonData := none, SecureJsonData := [("k", "v")],
    PluginVersion := "1.0.0", PluginId := "graph", OrgId := 99 }

/-- A sample server whose store fails every `Add` with a `Response4xxError` that
carries the status code 200. -/
def status200Server : HTTPServer :=
  { sampleServer with
    pluginStore :=
      { sampleStore with Add := fun _ _ => some (.leaf (.Response4xxError "fine" 200 "")) } }

/-- A sample server whose store fails every `Add` with a wrapped duplicate error. -/
def duplicateServer : HTTPServer :=
  { sampleServer with
    pluginStore :=
      { sampleStore with
        Add := fun _ _ => some (.wrap (.other "install") (.leaf (.DuplicateError "clock"))) } }

/-- A sample server whose backend plugin reports an error status with details. -/
def unhealthyServer : HTTPServer :=
  { sampleServer with
    pluginClient := { CheckHealth := fun _ => .ok ⟨2, "database down", "\x7b\x7d"⟩ } }

/-- A sample object decoder: the empty JSON object decodes, every other text is
refused as not being a JSON object. -/
def sampleDecodeObject (data : String) : Except GoError JsonMap :=
  if data = "\x7b\x7d" then .ok ⟨data⟩ else .error (.leaf (.other "not a JSON object"))

/-- A sample server whose backend plugin reports the status Ok with the JSON
value null as details. -/
def nullDetailsServer : HTTPServer :=
  { sampleServer with
    pluginClient := { CheckHealth := fun _ => .ok ⟨1, "running", "null"⟩ } }

/-- A sample bus that inspects the command it receives: it accepts a command
for organisation 7 and the plugin "clock" and fails on every other command. -/
def guardedBus : Bus :=
  { GetPluginSettingByIdQuery := fun _ _ => .error (.leaf .ErrPluginSettingNotFound)
    UpdatePluginSettingCmd := fun cmd =>
      if cmd.OrgId = 7 ∧ cmd.PluginId = "clock" then none
      else some (.leaf (.other "foreign command")) }

/-- A sample admin request for a plugin that is not installed. -/
def unknownPluginRequest : ReqContext :=
  { clockRequest with Params := fun k => if k = ":pluginId" then "absent" else "" }

/-- A sample rendering of the health status. -/
def sampleStatusString (status : Int) : String :=
  if status = 1 then "OK" else if status = 2 then "ERROR" else "UNKNOWN"

/-- A sample plugin installed in the root directory. -/
def rootDirPlugin : Plugin := { samplePlugin "rooted" "" false false with PluginDir := "/" }

/-- A sample server whose store knows the plugin "rooted" only. -/
def rootDirServer : HTTPServer :=
  { sampleServer with
    pluginStore :=
      { Plugins := [rootDirPlugin]
        Plugin := fun id => if id = "rooted" then some rootDirPlugin else none
        Add := fun _ _ => none } }

/-- A sample request for the file "a" of the plugin "rooted". -/
def rootedAssetRequest : ReqContext :=
  { clockRequest with
    Params := fun k => if k = ":pluginId" then "rooted" else if k = "*" then "a" else "" }

/-- A sample request that tries to leave the directory of the plugin "clock". -/
def traversalRequest : ReqContext :=
  { clockRequest with
    Params := fun k =>
      if k = ":pluginId" then "clock" else if k = "*" then "../..//etc/./passwd" else "" }

/-- A sample file system that holds "/var/lib/plugins/clock/README.md" only. -/
def sampleFiles : FileSystem :=
  { Exists := fun path => .ok (decide (path = "/var/lib/plugins/clock/README.md"))
    ReadFile := fun path =>
      if path = "/var/lib/plugins/clock/README.md" then .ok "# Clock"
      else .error (.leaf (.other "no such file")) }

/-- A sample `strings.ToUpper`, exact on ASCII text. -/
def sampleToUpper (s : String) : String := ⟨s.data.map Char.toUpper⟩

/-- A sample `strings.ToLower`, exact on ASCII text. -/
def sampleToLower (s : String) : String := ⟨s.data.map Char.toLower⟩

/-- A sample request for the markdown file "changelog" of the plugin "clock". -/
def changelogRequest : ReqContext :=
  { clockRequest with
    Params := fun k =>
      if k = ":pluginId" then "clock" else if k = ":name" then "changelog" else "" }

/-- The order of the list by item name. -/
def lessByName (a b : PluginListItem) : Bool := decide (a.Name < b.Name)

/-! ## Theorems -/

/-- Go `errors.Is` is membership in the unwrap chain. -/
theorem errorsIs_iff_mem (err : GoError) (t : ErrorValue) :
    errorsIs err t = true ↔ t ∈ err.chain := by
  induction err with
  | leaf v =>
    simp only [errorsIs, GoError.chain, beq_iff_eq, List.mem_singleton]
    exact eq_comm
  | wrap v inner ih =>
    simp only [errorsIs, GoError.chain, Bool.or_eq_true, beq_iff_eq, List.mem_cons, ih]
    exact or_congr eq_comm Iff.rfl

/-- C1: `translatePluginRequestErrorToAPIError` is a total first-match mapping:
404 "Plugin not found" if the error matches ErrPluginNotRegistered, otherwise
404 "Not found" on ErrMethodNotImplemented, otherwise 500 "Plugin health check
failed" on ErrHealthCheckFailed, otherwise 503 "Plugin unavailable" on
ErrPluginUnavailable, otherwise 500 "Plugin request failed"; the status is one
of 404, 500, 503 and never a 2xx status. -/
theorem translatePluginRequestError_first_match (β : Type) (err : GoError) :
    (translatePluginRequestErrorToAPIError err : Response β) =
      (if .ErrPluginNotRegistered ∈ err.chain then
          .Error 404 (.lit "Plugin not found") (some err)
        else if .ErrMethodNotImplemented ∈ err.chain then
          .Error 404 (.lit "Not found") (some err)
        else if .ErrHealthCheckFailed ∈ err.chain then
          .Error 500 (.lit "Plugin health check failed") (some err)
        else if .ErrPluginUnavailable ∈ err.chain then
          .Error 503 (.lit "Plugin unavailable") (some err)
        else .Error 500 (.lit "Plugin request failed") (some err))
    ∧ ((translatePluginRequestErrorToAPIError err : Response β).status = 404
        ∨ (translatePluginRequestErrorToAPIError err : Response β).status = 500
        ∨ (translatePluginRequestErrorToAPIError err : Response β).status = 503)
    ∧ ¬ (200 ≤ (translatePluginRequestErrorToAPIError err : Response β).status
        ∧ (translatePluginRequestErrorToAPIError err : Response β).status < 300) := by
  have h1 := errorsIs_iff_mem err .ErrPluginNotRegistered
  have h2 := errorsIs_iff_mem err .ErrMethodNotImplemented
  have h3 := errorsIs_iff_mem err .ErrHealthCheckFailed
  have h4 := errorsIs_iff_mem err .ErrPluginUnavailable
  unfold translatePluginRequestErrorToAPIError
  by_cases c1 : errorsIs err .ErrPluginNotRegistered = true
  · simp [c1, h1.mp c1, Response.status]
  · have n1 : ¬ (ErrorValue.ErrPluginNotRegistered ∈ err.chain) := fun h => c1 (h1.mpr h)
    by_cases c2 : errorsIs err .ErrMethodNotImplemented = true
    · simp [c1, n1, c2, h2.mp c2, Response.status]
    · have n2 : ¬ (ErrorValue.ErrMethodNotImplemented ∈ err.chain) := fun h => c2 (h2.mpr h)
      by_cases c3 : errorsIs err .ErrHealthCheckFailed = true
      · simp [c1, n1, c2, n2, c3, h3.mp c3, Response.status]
      · have n3 : ¬ (ErrorValue.ErrHealthCheckFailed ∈ err.chain) := fun h => c3 (h3.mpr h)
        by_cases c4 : errorsIs err .ErrPluginUnavailable = true
        · simp [c1, n1, c2, n2, c3, n3, c4, h4.mp c4, Response.status]
        · have n4 : ¬ (ErrorValue.ErrPluginUnavailable ∈ err.chain) := fun h => c4 (h4.mpr h)
          simp [c1, n1, c2, n2, c3, n3, c4, n4, Response.status]


/-! ### Sorting -/

theorem sortInsert_perm {α : Type} (less : α → α → Bool) (x : α) (l : List α) :
    (sortInsert less x l).Perm (x :: l) := by
  induction l with
  | nil => exact List.Perm.refl _
  | cons y ys ih =>
    unfold sortInsert
    split
    · exact List.Perm.refl _
    · exact (List.Perm.cons y ih).trans (List.Perm.swap x y ys)

theorem sortSort_perm {α : Type} (less : α → α → Bool) (l : List α) :
    (sortSort less l).Perm l := by
  induction l with
  | nil => exact List.Perm.refl _
  | cons x xs ih =>
    unfold sortSort
    exact (sortInsert_perm less x _).trans (List.Perm.cons x ih)

/-! ### The loop of GetPluginList -/

theorem pluginListLoop_eq (hs : HTTPServer) (m : String → Option PluginSetting)
    (t e b k : String) (ps : List Plugin) (result : List PluginListItem) :
    pluginListLoop hs m t e b k ps result
      = result ++ ps.filterMap (pluginListLoopBody hs m t e b k) := by
  induction ps generalizing result with
  | nil => simp [pluginListLoop]
  | cons p rest ih =>
    unfold pluginListLoop
    cases hb : pluginListLoopBody hs m t e b k p with
    | none => simp [ih, List.filterMap_cons, hb]
    | some item => simp [ih, List.filterMap_cons, hb]

theorem buildListItem_Id (hs : HTTPServer) (m : String → Option PluginSetting) (p : Plugin) :
    (buildListItem hs m p).Id = p.ID := by
  unfold buildListItem
  cases m p.ID with
  | none =>
    simp only
    split <;> rfl
  | some s =>
    simp only
    split <;> rfl

theorem buildListItem_Enabled (hs : HTTPServer) (m : String → Option PluginSetting)
    (p : Plugin) :
    (buildListItem hs m p).Enabled
      = (match m p.ID with
        | some s => s.Enabled
        | none => false) := by
  unfold buildListItem
  cases m p.ID with
  | none =>
    simp only
    split <;> rfl
  | some s =>
    simp only
    split <;> rfl

theorem buildListItem_Pinned (hs : HTTPServer) (m : String → Option PluginSetting)
    (p : Plugin) :
    (buildListItem hs m p).Pinned
      = (match m p.ID with
        | some s => s.Pinned
        | none => false) := by
  unfold buildListItem
  cases m p.ID with
  | none =>
    simp only
    split <;> rfl
  | some s =>
    simp only
    split <;> rfl

theorem filter_chain {α : Type} (x : α) (A B C a4 a5 a6 a7 E a9 : Bool) :
    (if A = true then none
      else if (B || C) = true then none
      else if (!a4 && !a5) = true then none
      else if (a6 && !a7) = true then none
      else if E = true then none
      else if a9 = true then none
      else some x)
    = if (!A && !B && !C && (a4 || a5) && (!a6 || a7) && !E && !a9) = true
      then some x else none := by
  cases A <;> cases B <;> cases C <;> cases a4 <;> cases a5 <;> cases a6 <;> cases a7 <;>
    cases E <;> cases a9 <;> rfl

theorem pluginListLoopBody_eq (hs : HTTPServer) (c : ReqContext)
    (m : String → Option PluginSetting) (p : Plugin) :
    pluginListLoopBody hs m (c.Query "type") (c.Query "enabled") (c.Query "embedded")
        (if !c.HasRole .ROLE_ADMIN then "1" else c.Query "core") p
      = if specListed hs c m p then some (buildListItem hs m p) else none := by
  unfold pluginListLoopBody specListed
  simp only [buildListItem_Enabled, bne]
  cases hrole : c.HasRole .ROLE_ADMIN
  · simp only [Bool.not_false, Bool.not_true, if_true, if_false, Bool.false_eq_true]
    exact filter_chain _ _ _ _ _ _ _ _ _ _
  · simp only [Bool.not_false, Bool.not_true, if_true, if_false, Bool.false_eq_true]
    exact filter_chain _ _ _ _ _ _ _ _ _ _

theorem filterMap_ite_eq {α β : Type} (f : α → Bool) (g : α → β) (l : List α) :
    l.filterMap (fun a => if f a = true then some (g a) else none) = (l.filter f).map g := by
  induction l with
  | nil => rfl
  | cons a l ih =>
    cases h : f a <;> simp [List.filterMap_cons, List.filter_cons, h, ih]

/-- When the settings lookup succeeds, the response is the sorted list of the
items of the listed plugins. -/
theorem GetPluginList_ok (Less : PluginListItem → PluginListItem → Bool) (hs : HTTPServer)
    (c : ReqContext) (m : String → Option PluginSetting)
    (h : hs.pluginSettings c.OrgId = .ok m) :
    GetPluginList Less hs c
      = .JSON 200 (sortSort Less
          ((hs.pluginStore.Plugins.filter (specListed hs c m)).map (buildListItem hs m))) := by
  unfold GetPluginList
  simp only [h, pluginListLoop_eq, List.nil_append]
  have hb : pluginListLoopBody hs m (c.Query "type") (c.Query "enabled") (c.Query "embedded")
        (if !c.HasRole .ROLE_ADMIN then "1" else c.Query "core")
      = fun p => if specListed hs c m p = true then some (buildListItem hs m p) else none := by
    funext p
    exact pluginListLoopBody_eq hs c m p
  rw [hb, filterMap_ite_eq]

theorem loopBody_embedded (hs : HTTPServer) (m : String → Option PluginSetting)
    (t e b k : String) (hb : b ≠ "0") :
    pluginListLoopBody hs m t e b k = pluginListLoopBody hs m t e "" k := by
  funext p
  have h1 : (b == "0") = false := by simpa using hb
  have h2 : (("" : String) == "0") = false := by decide
  simp only [pluginListLoopBody, h1, h2]

theorem loopBody_enabled (hs : HTTPServer) (m : String → Option PluginSetting)
    (t e b k : String) (he : e ≠ "1") :
    pluginListLoopBody hs m t e b k = pluginListLoopBody hs m t "" b k := by
  funext p
  have h1 : (e == "1") = false := by simpa using he
  have h2 : (("" : String) == "1") = false := by decide
  simp only [pluginListLoopBody, h1, h2]

theorem loopBody_core (hs : HTTPServer) (m : String → Option PluginSetting)
    (t e b k : String) (h0 : k ≠ "0") (h1 : k ≠ "1") :
    pluginListLoopBody hs m t e b k = pluginListLoopBody hs m t e b "" := by
  funext p
  have e0 : (k == "0") = false := by simpa using h0
  have e1 : (k == "1") = false := by simpa using h1
  have h2 : (("" : String) == "0") = false := by decide
  have h3 : (("" : String) == "1") = false := by decide
  simp only [pluginListLoopBody, e0, e1, h2, h3]

theorem GetPluginList_embedded_other (Less : PluginListItem → PluginListItem → Bool)
    (hs : HTTPServer) (c : ReqContext) (h : c.Query "embedded" ≠ "0") :
    GetPluginList Less hs c = GetPluginList Less hs (c.withQuery "embedded" "") := by
  have q1 : (c.withQuery "embedded" "").Query "type" = c.Query "type" := by
    simp [ReqContext.withQuery]
  have q2 : (c.withQuery "embedded" "").Query "enabled" = c.Query "enabled" := by
    simp [ReqContext.withQuery]
  have q3 : (c.withQuery "embedded" "").Query "embedded" = "" := by
    simp [ReqContext.withQuery]
  have q4 : (c.withQuery "embedded" "").Query "core" = c.Query "core" := by
    simp [ReqContext.withQuery]
  have q5 : (c.withQuery "embedded" "").HasRole = c.HasRole := rfl
  have q6 : (c.withQuery "embedded" "").OrgId = c.OrgId := rfl
  unfold GetPluginList
  simp only [q1, q2, q3, q4, q5, q6, pluginListLoop_eq]
  cases hs.pluginSettings c.OrgId with
  | error e => rfl
  | ok m => simp only [loopBody_embedded hs m _ _ _ _ h]

theorem GetPluginList_enabled_other (Less : PluginListItem → PluginListItem → Bool)
    (hs : HTTPServer) (c : ReqContext) (h : c.Query "enabled" ≠ "1") :
    GetPluginList Less hs c = GetPluginList Less hs (c.withQuery "enabled" "") := by
  have q1 : (c.withQuery "enabled" "").Query "type" = c.Query "type" := by
    simp [ReqContext.withQuery]
  have q2 : (c.withQuery "enabled" "").Query "enabled" = "" := by
    simp [ReqContext.withQuery]
  have q3 : (c.withQuery "enabled" "").Query "embedded" = c.Query "embedded" := by
    simp [ReqContext.withQuery]
  have q4 : (c.withQuery "enabled" "").Query "core" = c.Query "core" := by
    simp [ReqContext.withQuery]
  have q5 : (c.withQuery "enabled" "").HasRole = c.HasRole := rfl
  have q6 : (c.withQuery "enabled" "").OrgId = c.OrgId := rfl
  unfold GetPluginList
  simp only [q1, q2, q3, q4, q5, q6, pluginListLoop_eq]
  cases hs.pluginSettings c.OrgId with
  | error e => rfl
  | ok m => simp only [loopBody_enabled hs m _ _ _ _ h]

theorem GetPluginList_core_other (Less : PluginListItem → PluginListItem → Bool)
    (hs : HTTPServer) (c : ReqContext) (h0 : c.Query "core" ≠ "0") (h1 : c.Query "core" ≠ "1") :
    GetPluginList Less hs c = GetPluginList Less hs (c.withQuery "core" "") := by
  have q1 : (c.withQuery "core" "").Query "type" = c.Query "type" := by
    simp [ReqContext.withQuery]
  have q2 : (c.withQuery "core" "").Query "enabled" = c.Query "enabled" := by
    simp [ReqContext.withQuery]
  have q3 : (c.withQuery "core" "").Query "embedded" = c.Query "embedded" := by
    simp [ReqContext.withQuery]
  have q4 : (c.withQuery "core" "").Query "core" = "" := by
    simp [ReqContext.withQuery]
  have q5 : (c.withQuery "core" "").HasRole = c.HasRole := rfl
  have q6 : (c.withQuery "core" "").OrgId = c.OrgId := rfl
  unfold GetPluginList
  simp only [q1, q2, q3, q4, q5, q6, pluginListLoop_eq]
  cases hs.pluginSettings c.OrgId with
  | error e => rfl
  | ok m =>
    cases c.HasRole .ROLE_ADMIN with
    | false => rfl
    | true =>
      simp only [Bool.not_true, Bool.false_eq_true, if_false]
      simp only [loopBody_core hs m _ _ _ _ h0 h1]

/-- C2: for a user without the admin role, whatever the query parameters are
(including core=0) and whatever the installed plugins are, when the settings
lookup succeeds the response is 200 and every item of it was built from a
plugin for which IsCorePlugin() is true. -/
theorem GetPluginList_viewer_only_core (Less : PluginListItem → PluginListItem → Bool)
    (hs : HTTPServer) (c : ReqContext) (m : String → Option PluginSetting)
    (hrole : c.HasRole .ROLE_ADMIN = false) (h : hs.pluginSettings c.OrgId = .ok m) :
    ∃ items, GetPluginList Less hs c = .JSON 200 items
      ∧ ∀ item ∈ items, ∃ p ∈ hs.pluginStore.Plugins,
          p.IsCorePlugin = true ∧ item = buildListItem hs m p := by
  refine ⟨_, GetPluginList_ok Less hs c m h, ?_⟩
  intro item hitem
  have hmem := (sortSort_perm Less _).mem_iff.mp hitem
  obtain ⟨p, hp, rfl⟩ := List.mem_map.mp hmem
  obtain ⟨hpl, hlisted⟩ := List.mem_filter.mp hp
  refine ⟨p, hpl, ?_, rfl⟩
  unfold specListed at hlisted
  simp only [hrole, Bool.false_eq_true, if_false] at hlisted
  cases hc : p.IsCorePlugin with
  | true => rfl
  | false =>
    have e11 : (("1" : String) == "1") = true := by decide
    simp [hc, e11] at hlisted

/-- Worked instance of C2: a viewer asking for `core=0` gets only the core plugin. -/
theorem GetPluginList_viewer_only_core_witness :
    viewerRequest.HasRole .ROLE_ADMIN = false
    ∧ sampleServer.pluginSettings viewerRequest.OrgId = .ok sampleSettings
    ∧ ∃ items, GetPluginList lessByName sampleServer viewerRequest = .JSON 200 items
      ∧ ∀ item ∈ items, ∃ p ∈ sampleServer.pluginStore.Plugins,
          p.IsCorePlugin = true ∧ item = buildListItem sampleServer sampleSettings p :=
  ⟨by decide, rfl,
    GetPluginList_viewer_only_core lessByName sampleServer viewerRequest sampleSettings
      (by decide) rfl⟩

/-- C8: when the settings lookup succeeds, the response is 200 and its items are
a permutation of the items built, one per plugin, from the installed plugins
that pass every filter (embedded, core with "1" forced for non-admins, type,
alpha state, enabled, built-in).  A built-in plugin is never listed, and a
value of `embedded` other than "0", of `enabled` other than "1", or of `core`
other than "0" and "1" gives the response of the request without that
parameter, so it removes nothing. -/
theorem GetPluginList_filtered_perm (Less : PluginListItem → PluginListItem → Bool)
    (hs : HTTPServer) (c : ReqContext) (m : String → Option PluginSetting)
    (h : hs.pluginSettings c.OrgId = .ok m) :
    (∃ items, GetPluginList Less hs c = .JSON 200 items
      ∧ items.Perm ((hs.pluginStore.Plugins.filter (specListed hs c m)).map (buildListItem hs m))
      ∧ items.length = (hs.pluginStore.Plugins.filter (specListed hs c m)).length)
    ∧ (∀ p, p.BuiltIn = true → specListed hs c m p = false)
    ∧ (c.Query "embedded" ≠ "0" →
        GetPluginList Less hs c = GetPluginList Less hs (c.withQuery "embedded" ""))
    ∧ (c.Query "enabled" ≠ "1" →
        GetPluginList Less hs c = GetPluginList Less hs (c.withQuery "enabled" ""))
    ∧ (c.Query "core" ≠ "0" → c.Query "core" ≠ "1" →
        GetPluginList Less hs c = GetPluginList Less hs (c.withQuery "core" "")) := by
  refine ⟨⟨_, GetPluginList_ok Less hs c m h, sortSort_perm Less _, ?_⟩, ?_,
    GetPluginList_embedded_other Less hs c, GetPluginList_enabled_other Less hs c,
    GetPluginList_core_other Less hs c⟩
  · rw [(sortSort_perm Less _).length_eq, List.length_map]
  · intro p hp
    unfold specListed
    simp [hp]

/-- Worked instance of C8: an admin request whose `embedded`, `enabled` and `core`
parameters carry values that name no filter. -/
theorem GetPluginList_filtered_perm_witness :
    sampleServer.pluginSettings adminRequest.OrgId = .ok sampleSettings
    ∧ (∃ items, GetPluginList lessByName sampleServer adminRequest = .JSON 200 items
      ∧ items.Perm ((sampleServer.pluginStore.Plugins.filter
            (specListed sampleServer adminRequest sampleSettings)).map
          (buildListItem sampleServer sampleSettings))
      ∧ items.length = (sampleServer.pluginStore.Plugins.filter
            (specListed sampleServer adminRequest sampleSettings)).length)
    ∧ GetPluginList lessByName sampleServer adminRequest
        = GetPluginList lessByName sampleServer (adminRequest.withQuery "embedded" "")
    ∧ GetPluginList lessByName sampleServer adminRequest
        = GetPluginList lessByName sampleServer (adminRequest.withQuery "enabled" "")
    ∧ GetPluginList lessByName sampleServer adminRequest
        = GetPluginList lessByName sampleServer (adminRequest.withQuery "core" "") :=
  ⟨rfl,
    (GetPluginList_filtered_perm lessByName sampleServer adminRequest sampleSettings rfl).1,
    (GetPluginList_filtered_perm lessByName sampleServer adminRequest sampleSettings rfl).2.2.1
      (by decide),
    (GetPluginList_filtered_perm lessByName sampleServer adminRequest sampleSettings rfl).2.2.2.1
      (by decide),
    (GetPluginList_filtered_perm lessByName sampleServer adminRequest sampleSettings rfl).2.2.2.2
      (by decide) (by decide)⟩


theorem buildListItem_DefaultNavUrl (hs : HTTPServer) (m : String → Option PluginSetting)
    (p : Plugin) :
    (buildListItem hs m p).DefaultNavUrl
      = if p.DefaultNavURL ≠ "" ∧ (buildListItem hs m p).Enabled = true then p.DefaultNavURL
        else hs.Cfg.AppSubURL ++ "/plugins/" ++ p.ID ++ "/" := by
  rw [buildListItem_Enabled]
  unfold buildListItem
  cases hm : m p.ID with
  | none => simp
  | some s =>
    by_cases hn : p.DefaultNavURL = ""
    · simp [hn]
    · cases he : s.Enabled <;> simp [hn, he]

theorem default_nav_ne_empty (a id : String) : a ++ "/plugins/" ++ id ++ "/" ≠ "" := by
  intro h
  have hl := congrArg String.length h
  simp only [String.length_append] at hl
  have h1 : ("/" : String).length = 1 := by decide
  have h0 : ("" : String).length = 0 := by decide
  omega

/-- C9 (amended): for every item returned by GetPluginList, Enabled and Pinned
are those of the organisation's setting for that plugin ID and both are false
when no such setting exists; DefaultNavUrl is the plugin's own DefaultNavURL
when that URL is non-empty and the item is enabled, and in every other case it
is Cfg.AppSubURL + "/plugins/" + plugin ID + "/"; no returned item has an empty
DefaultNavUrl. -/
theorem GetPluginList_item_settings_and_nav (Less : PluginListItem → PluginListItem → Bool)
    (hs : HTTPServer) (c : ReqContext) (m : String → Option PluginSetting)
    (h : hs.pluginSettings c.OrgId = .ok m) :
    ∃ items, GetPluginList Less hs c = .JSON 200 items
      ∧ ∀ item ∈ items, ∃ p ∈ hs.pluginStore.Plugins,
          item = buildListItem hs m p ∧ item.Id = p.ID
          ∧ (∀ s, m item.Id = some s → item.Enabled = s.Enabled ∧ item.Pinned = s.Pinned)
          ∧ (m item.Id = none → item.Enabled = false ∧ item.Pinned = false)
          ∧ (p.DefaultNavURL ≠ "" ∧ item.Enabled = true →
              item.DefaultNavUrl = p.DefaultNavURL)
          ∧ (¬ (p.DefaultNavURL ≠ "" ∧ item.Enabled = true) →
              item.DefaultNavUrl = hs.Cfg.AppSubURL ++ "/plugins/" ++ p.ID ++ "/")
          ∧ item.DefaultNavUrl ≠ "" := by
  refine ⟨_, GetPluginList_ok Less hs c m h, ?_⟩
  intro item hitem
  have hmem := (sortSort_perm Less _).mem_iff.mp hitem
  obtain ⟨p, hp, rfl⟩ := List.mem_map.mp hmem
  obtain ⟨hpl, -⟩ := List.mem_filter.mp hp
  have hE := buildListItem_Enabled hs m p
  have hP := buildListItem_Pinned hs m p
  have hN := buildListItem_DefaultNavUrl hs m p
  refine ⟨p, hpl, rfl, buildListItem_Id hs m p, ?_, ?_, ?_, ?_, ?_⟩
  · intro s hs'
    rw [buildListItem_Id] at hs'
    rw [hE, hP, hs']
    exact ⟨rfl, rfl⟩
  · intro hnone
    rw [buildListItem_Id] at hnone
    rw [hE, hP, hnone]
    exact ⟨rfl, rfl⟩
  · intro hc
    rw [hN, if_pos hc]
  · intro hc
    rw [hN, if_neg hc]
  · rw [hN]
    split
    · rename_i hc
      exact hc.1
    · exact default_nav_ne_empty _ _

/-- Worked instance of C9 (amended) on the sample server. -/
theorem GetPluginList_item_settings_and_nav_witness :
    sampleServer.pluginSettings adminRequest.OrgId = .ok sampleSettings
    ∧ ∃ items, GetPluginList lessByName sampleServer adminRequest = .JSON 200 items
      ∧ ∀ item ∈ items, ∃ p ∈ sampleServer.pluginStore.Plugins,
          item = buildListItem sampleServer sampleSettings p ∧ item.Id = p.ID
          ∧ (∀ s, sampleSettings item.Id = some s →
              item.Enabled = s.Enabled ∧ item.Pinned = s.Pinned)
          ∧ (sampleSettings item.Id = none → item.Enabled = false ∧ item.Pinned = false)
          ∧ (p.DefaultNavURL ≠ "" ∧ item.Enabled = true →
              item.DefaultNavUrl = p.DefaultNavURL)
          ∧ (¬ (p.DefaultNavURL ≠ "" ∧ item.Enabled = true) →
              item.DefaultNavUrl
                = sampleServer.Cfg.AppSubURL ++ "/plugins/" ++ p.ID ++ "/")
          ∧ item.DefaultNavUrl ≠ "" :=
  ⟨rfl, GetPluginList_item_settings_and_nav lessByName sampleServer adminRequest
    sampleSettings rfl⟩

/-- C9 as stated fails: the plugin "clock" is not enabled for the organisation
and its own DefaultNavURL is "/plugins/clock/"; the returned item has the
default URL, which equals the plugin's own URL although the item is not
enabled, so the "only if" half of the stated equivalence is false. -/
theorem GetPluginList_nav_iff_counterexample :
    ∃ item, GetPluginList lessByName navServer adminRequest = .JSON 200 [item]
      ∧ item = buildListItem navServer (fun _ => none) navPlugin
      ∧ item.Enabled = false
      ∧ item.DefaultNavUrl = "/plugins/clock/"
      ∧ ¬ (item.DefaultNavUrl = navPlugin.DefaultNavURL
            ↔ (navPlugin.DefaultNavURL ≠ "" ∧ item.Enabled = true)) :=
  ⟨buildListItem navServer (fun _ => none) navPlugin, rfl, rfl, by decide, by decide,
    by decide⟩


/-- Go `errors.As` yields the first value of the unwrap chain that has the type. -/
theorem errorsAs_eq_findSome {α : Type} (sel : ErrorValue → Option α) (err : GoError) :
    errorsAs sel err = err.chain.findSome? sel := by
  induction err with
  | leaf v =>
    simp only [errorsAs, GoError.chain, List.findSome?]
    cases sel v <;> rfl
  | wrap v inner ih =>
    simp only [errorsAs, GoError.chain, List.findSome?, ih]
    cases sel v <;> rfl

/-- C5 (amended): InstallPlugin responds 200 with an empty body when
pluginStore.Add returns no error; for every error it returns the first matching
case of DuplicateError -> 409, ErrVersionUnsupported -> 409, ErrVersionNotFound
-> 404, Response4xxError -> that error's own StatusCode and Message,
ErrInstallCorePlugin -> 403, any other error -> 500; the status of the response
is 200 exactly when Add returned no error or the first matching case is a
Response4xxError whose own StatusCode is 200. -/
theorem InstallPlugin_first_match (hs : HTTPServer) (c : ReqContext)
    (dto : InstallPluginCommand) :
    (hs.pluginStore.Add (c.Params ":pluginId") dto.Version = none →
        InstallPlugin hs c dto = .JSON 200 "")
    ∧ (∀ err, hs.pluginStore.Add (c.Params ":pluginId") dto.Version = some err →
        InstallPlugin hs c dto =
          if (err.chain.findSome? asDuplicateError).isSome then
            .Error 409 (.lit "Plugin already installed") (some err)
          else if (err.chain.findSome? asErrVersionUnsupported).isSome then
            .Error 409 (.lit "Plugin version not supported") (some err)
          else if (err.chain.findSome? asErrVersionNotFound).isSome then
            .Error 404 (.lit "Plugin version not found") (some err)
          else
            match err.chain.findSome? asResponse4xxError with
            | some clientError =>
              .Error clientError.StatusCode (.lit clientError.Message) (some err)
            | none =>
              if .ErrInstallCorePlugin ∈ err.chain then
                .Error 403 (.lit "Cannot install or change a Core plugin") (some err)
              else .Error 500 (.lit "Failed to install plugin") (some err))
    ∧ ((InstallPlugin hs c dto).status = 200 ↔
        (hs.pluginStore.Add (c.Params ":pluginId") dto.Version = none
          ∨ ∃ err clientError,
              hs.pluginStore.Add (c.Params ":pluginId") dto.Version = some err
              ∧ err.chain.findSome? asDuplicateError = none
              ∧ err.chain.findSome? asErrVersionUnsupported = none
              ∧ err.chain.findSome? asErrVersionNotFound = none
              ∧ err.chain.findSome? asResponse4xxError = some clientError
              ∧ clientError.StatusCode = 200)) := by
  unfold InstallPlugin
  simp only [errorsAs_eq_findSome, StatusOK, StatusConflict, StatusNotFound, StatusForbidden,
    StatusInternalServerError]
  cases hadd : hs.pluginStore.Add (c.Params ":pluginId") dto.Version with
  | none => simp [Response.status]
  | some err =>
    have hcore := errorsIs_iff_mem err .ErrInstallCorePlugin
    refine ⟨by simp, ?_⟩
    simp only [Option.some.injEq, forall_eq', false_or, reduceCtorEq, exists_and_left,
      exists_eq_left']
    cases h1 : err.chain.findSome? asDuplicateError with
    | some d => simp [Response.status]
    | none =>
      cases h2 : err.chain.findSome? asErrVersionUnsupported with
      | some d => simp [Response.status]
      | none =>
        cases h3 : err.chain.findSome? asErrVersionNotFound with
        | some d => simp [Response.status]
        | none =>
          cases h4 : err.chain.findSome? asResponse4xxError with
          | some ce => simp [Response.status]
          | none =>
            by_cases hc : errorsIs err .ErrInstallCorePlugin = true
            · simp [Response.status, hc, hcore.mp hc]
            · have hn : ¬ (ErrorValue.ErrInstallCorePlugin ∈ err.chain) :=
                fun h => hc (hcore.mpr h)
              simp [Response.status, hc, hn]

/-- Worked instances of C5 (amended): a successful install, and an install that
fails with a wrapped DuplicateError. -/
theorem InstallPlugin_first_match_witness :
    InstallPlugin sampleServer clockRequest ⟨"1.0.0"⟩ = .JSON 200 ""
    ∧ InstallPlugin duplicateServer clockRequest ⟨"1.0.0"⟩
        = .Error 409 (.lit "Plugin already installed")
            (some (.wrap (.other "install") (.leaf (.DuplicateError "clock")))) :=
  ⟨(InstallPlugin_first_match sampleServer clockRequest ⟨"1.0.0"⟩).1 rfl,
    (InstallPlugin_first_match duplicateServer clockRequest ⟨"1.0.0"⟩).2.1 _ rfl⟩

/-- C5 as stated fails: when Add returns a Response4xxError whose StatusCode is
200, the status code is passed through, so InstallPlugin responds 200 although
Add returned an error. -/
theorem InstallPlugin_200_iff_counterexample :
    status200Server.pluginStore.Add (clockRequest.Params ":pluginId") "1.0.0"
        = some (.leaf (.Response4xxError "fine" 200 ""))
    ∧ InstallPlugin status200Server clockRequest ⟨"1.0.0"⟩
        = .Error 200 (.lit "fine") (some (.leaf (.Response4xxError "fine" 200 "")))
    ∧ (InstallPlugin status200Server clockRequest ⟨"1.0.0"⟩).status = 200 :=
  ⟨rfl, rfl, rfl⟩

/-- C7: GetPluginSettingByID answers 404 when the plugin is not installed; when
the settings query succeeds the returned Enabled, Pinned and JsonData are those
of the stored setting, for app and non-app plugins alike; when the query fails
with ErrPluginSettingNotFound the response is still 200 with Enabled = Pinned =
plugin.AutoEnabled for an app plugin and Enabled = Pinned = false for any other
plugin; for every other query error the response is 500. -/
theorem GetPluginSettingByID_precedence (bus : Bus) (hs : HTTPServer) (c : ReqContext) :
    (hs.pluginStore.Plugin (c.Params ":pluginId") = none →
        (GetPluginSettingByID bus hs c).status = 404)
    ∧ ∀ plugin, hs.pluginStore.Plugin (c.Params ":pluginId") = some plugin →
        (∀ result, bus.GetPluginSettingByIdQuery (c.Params ":pluginId") c.OrgId = .ok result →
          ∃ dto, GetPluginSettingByID bus hs c = .JSON 200 dto
            ∧ dto.Id = plugin.ID
            ∧ dto.Enabled = result.Enabled ∧ dto.Pinned = result.Pinned
            ∧ dto.JsonData = result.JsonData)
        ∧ (∀ err, bus.GetPluginSettingByIdQuery (c.Params ":pluginId") c.OrgId = .error err →
            .ErrPluginSettingNotFound ∈ err.chain →
          ∃ dto, GetPluginSettingByID bus hs c = .JSON 200 dto
            ∧ dto.Id = plugin.ID
            ∧ (plugin.IsApp = true →
                dto.Enabled = plugin.AutoEnabled ∧ dto.Pinned = plugin.AutoEnabled)
            ∧ (plugin.IsApp = false → dto.Enabled = false ∧ dto.Pinned = false)
            ∧ dto.JsonData = none)
        ∧ (∀ err, bus.GetPluginSettingByIdQuery (c.Params ":pluginId") c.OrgId = .error err →
            .ErrPluginSettingNotFound ∉ err.chain →
          (GetPluginSettingByID bus hs c).status = 500) := by
  refine ⟨?_, ?_⟩
  · intro hnone
    simp [GetPluginSettingByID, hnone, Response.status]
  · intro plugin hplugin
    refine ⟨?_, ?_, ?_⟩
    · intro result hq
      simp only [GetPluginSettingByID, hplugin, hq]
      exact ⟨_, rfl, by cases plugin.IsApp <;> simp⟩
    · intro err hq hmem
      have his := (errorsIs_iff_mem err .ErrPluginSettingNotFound).mpr hmem
      simp only [GetPluginSettingByID, hplugin, hq, his, Bool.not_true, Bool.false_eq_true,
        if_false]
      exact ⟨_, rfl, by cases plugin.IsApp <;> simp⟩
    · intro err hq hmem
      have his : errorsIs err .ErrPluginSettingNotFound = false := by
        cases hb : errorsIs err .ErrPluginSettingNotFound with
        | false => rfl
        | true => exact absurd ((errorsIs_iff_mem err .ErrPluginSettingNotFound).mp hb) hmem
      simp [GetPluginSettingByID, hplugin, hq, his, Response.status]

/-- Worked instance of C7: the stored setting of "clock" overrides the defaults. -/
theorem GetPluginSettingByID_precedence_witness :
    ∃ dto, GetPluginSettingByID sampleBus sampleServer clockRequest = .JSON 200 dto
      ∧ dto.Id = "clock"
      ∧ dto.Enabled = true ∧ dto.Pinned = false
      ∧ dto.JsonData = some ⟨"\x7b\x7d"⟩ :=
  ((GetPluginSettingByID_precedence sampleBus sampleServer clockRequest).2
    (samplePlugin "clock" "/a/clock" false false) rfl).1
    ⟨true, false, some ⟨"\x7b\x7d"⟩⟩ rfl

/-- C10: UpdatePluginSetting confines an update to the organisation of the
caller and the plugin named in the URL.  Whatever OrgId and PluginId the body
carries, when the plugin is installed exactly one command reaches the bus, its
OrgId is the OrgId of the request context, its PluginId is the ":pluginId"
route parameter and every other field is that of the body; the response is the
answer of the bus to that very command (500 on an error, success otherwise).
When no plugin with that ID is installed the response is 404 and no command is
dispatched at all. -/
theorem UpdatePluginSetting_confined (bus : Bus) (hs : HTTPServer) (c : ReqContext)
    (cmd : UpdatePluginSettingCmd) :
    (hs.pluginStore.Plugin (c.Params ":pluginId") = none →
        UpdatePluginSetting bus hs c cmd
          = (.Error 404 (.lit "Plugin not installed") none, []))
    ∧ (∀ plugin, hs.pluginStore.Plugin (c.Params ":pluginId") = some plugin →
        ∃ sent,
          sent.OrgId = c.OrgId ∧ sent.PluginId = c.Params ":pluginId"
          ∧ sent.Enabled = cmd.Enabled ∧ sent.Pinned = cmd.Pinned
          ∧ sent.JsonData = cmd.JsonData ∧ sent.SecureJsonData = cmd.SecureJsonData
          ∧ sent.PluginVersion = cmd.PluginVersion
          ∧ (UpdatePluginSetting bus hs c cmd).2 = [sent]
          ∧ (∀ err, bus.UpdatePluginSettingCmd sent = some err →
              UpdatePluginSetting bus hs c cmd
                = (.Error 500 (.lit "Failed to update plugin setting") (some err), [sent]))
          ∧ (bus.UpdatePluginSettingCmd sent = none →
              UpdatePluginSetting bus hs c cmd
                = (.Success "Plugin settings updated", [sent]))) := by
  refine ⟨?_, ?_⟩
  · intro hnone
    simp only [UpdatePluginSetting, hnone]
  · intro plugin hplugin
    refine ⟨{ cmd with OrgId := c.OrgId, PluginId := c.Params ":pluginId" }, rfl, rfl,
      rfl, rfl, rfl, rfl, rfl, ?_, ?_, ?_⟩
    · simp only [UpdatePluginSetting, hplugin, DispatchCtx]
      cases bus.UpdatePluginSettingCmd _ <;> rfl
    · intro err herr
      simp only [UpdatePluginSetting, hplugin, DispatchCtx, herr, List.nil_append]
    · intro hok
      simp only [UpdatePluginSetting, hplugin, DispatchCtx, hok, List.nil_append]

/-- Worked instance of C10: the bus accepts only a command for organisation 7
and the plugin "clock"; a body naming organisation 99 and the plugin "graph"
succeeds, because the command that reaches the bus carries the organisation of
the request and the plugin of the URL. -/
theorem UpdatePluginSetting_confined_witness :
    guardedBus.UpdatePluginSettingCmd foreignCmd = some (.leaf (.other "foreign command"))
    ∧ UpdatePluginSetting guardedBus sampleServer clockRequest foreignCmd
        = (.Success "Plugin settings updated",
           [{ foreignCmd with OrgId := 7, PluginId := "clock" }])
    ∧ UpdatePluginSetting guardedBus sampleServer unknownPluginRequest foreignCmd
        = (.Error 404 (.lit "Plugin not installed") none, []) := by
  refine ⟨rfl, ?_, ?_⟩
  · obtain ⟨sent, ho, hp, he, hpin, hj, hsj, hv, -, -, hsucc⟩ :=
      (UpdatePluginSetting_confined guardedBus sampleServer clockRequest foreignCmd).2
        (samplePlugin "clock" "/a/clock" false false) rfl
    have hsent : sent = { foreignCmd with OrgId := 7, PluginId := "clock" } := by
      cases sent
      simp only [UpdatePluginSettingCmd.mk.injEq] at *
      exact ⟨he, hpin, hj, hsj, hv, hp, ho⟩
    subst hsent
    exact hsucc rfl
  · exact (UpdatePluginSetting_confined guardedBus sampleServer unknownPluginRequest
      foreignCmd).1 rfl

/-- C4 (amended): when the plugin context is found and the backend health call
returns a result without error, CheckHealth answers 200 if the status is
HealthStatusOk and 503 for every other status, with a payload whose "status" is
the status rendered by String(), whose "message" is the message of the result,
and which has "details" exactly when JSONDetails is non-empty; the only
exception is a non-empty JSONDetails on which json.Unmarshal returns an error,
which yields 500 whatever the status is.  The JSON value null is not such an
exception: it is decoded without error and the payload carries "details" with
the nil map. -/
theorem CheckHealth_status_and_payload (statusString : Int → String)
    (decodeObject : String → Except GoError JsonMap) (hs : HTTPServer) (c : ReqContext)
    (pCtx : PluginContext) (resp : CheckHealthResult)
    (hctx : hs.PluginContextProvider.Get (c.Params ":pluginId") "" c.SignedInUser false
      = .ok (some pCtx))
    (hresp : hs.pluginClient.CheckHealth pCtx = .ok resp) :
    (resp.JSONDetails.length = 0 →
        CheckHealth statusString decodeObject hs c
          = .JSON (if resp.Status = HealthStatusOk then 200 else 503)
              { status := statusString resp.Status, message := resp.Message, details := none })
    ∧ (0 < resp.JSONDetails.length → isJSONNull resp.JSONDetails = true →
        CheckHealth statusString decodeObject hs c
          = .JSON (if resp.Status = HealthStatusOk then 200 else 503)
              { status := statusString resp.Status, message := resp.Message,
                details := some none })
    ∧ (∀ object, 0 < resp.JSONDetails.length → isJSONNull resp.JSONDetails = false →
        decodeObject resp.JSONDetails = .ok object →
        CheckHealth statusString decodeObject hs c
          = .JSON (if resp.Status = HealthStatusOk then 200 else 503)
              { status := statusString resp.Status, message := resp.Message,
                details := some (some object) })
    ∧ (∀ err, 0 < resp.JSONDetails.length → isJSONNull resp.JSONDetails = false →
        decodeObject resp.JSONDetails = .error err →
        CheckHealth statusString decodeObject hs c
          = .Error 500 (.lit "Failed to unmarshal detailed response from backend plugin")
              (some err)) := by
  refine ⟨?_, ?_, ?_, ?_⟩
  · intro hlen
    simp only [CheckHealth, hctx, hresp, hlen, gt_iff_lt, lt_self_iff_false, if_false]
    by_cases hst : resp.Status = HealthStatusOk <;> simp [hst]
  · intro hlen hnull
    simp only [CheckHealth, hctx, hresp, hlen, gt_iff_lt, if_true, jsonUnmarshal, hnull]
    by_cases hst : resp.Status = HealthStatusOk <;> simp [hst]
  · intro object hlen hnull hdec
    simp only [CheckHealth, hctx, hresp, hlen, gt_iff_lt, if_true, jsonUnmarshal, hnull,
      Bool.false_eq_true, if_false, hdec]
    by_cases hst : resp.Status = HealthStatusOk <;> simp [hst]
  · intro err hlen hnull hdec
    simp only [CheckHealth, hctx, hresp, hlen, gt_iff_lt, if_true, jsonUnmarshal, hnull,
      Bool.false_eq_true, if_false, hdec]

/-- Worked instance of C4 (amended): a backend that reports status 2 with an
object as details is answered 503 with the three payload keys. -/
theorem CheckHealth_status_and_payload_witness :
    CheckHealth sampleStatusString sampleDecodeObject unhealthyServer clockRequest
      = .JSON 503 { status := "ERROR", message := "database down",
                    details := some (some ⟨"\x7b\x7d"⟩) } :=
  (CheckHealth_status_and_payload sampleStatusString sampleDecodeObject unhealthyServer
    clockRequest ⟨"clock", 1⟩ ⟨2, "database down", "\x7b\x7d"⟩ rfl rfl).2.2.1
    ⟨"\x7b\x7d"⟩ (by decide) (by decide) rfl

/-- C4 as stated fails: the details "null" are non-empty and are not a JSON
object (the object decoder refuses the text and no object is decoded), yet
json.Unmarshal returns no error on the JSON value null, so the response is 200
with "details" holding the nil map, not 500. -/
theorem CheckHealth_null_details_counterexample :
    nullDetailsServer.pluginClient.CheckHealth ⟨"clock", 1⟩ = .ok ⟨1, "running", "null"⟩
    ∧ 0 < ("null" : String).length
    ∧ sampleDecodeObject "null" = .error (.leaf (.other "not a JSON object"))
    ∧ jsonUnmarshal sampleDecodeObject "null" = .ok none
    ∧ CheckHealth sampleStatusString sampleDecodeObject nullDetailsServer clockRequest
        = .JSON 200 { status := "OK", message := "running", details := some none }
    ∧ (CheckHealth sampleStatusString sampleDecodeObject nullDetailsServer clockRequest).status
        ≠ 500 :=
  ⟨rfl, by decide, rfl, rfl, rfl, by decide⟩

/-! ### The loops of Clean -/

theorem copyElement_eq (path out : List Char) :
    copyElement path out
      = (path.dropWhile (fun c => !IsPathSeparator c),
         (path.takeWhile (fun c => !IsPathSeparator c)).reverse ++ out) := by
  induction path generalizing out with
  | nil => rfl
  | cons c rest ih =>
    unfold copyElement
    by_cases hc : IsPathSeparator c = true
    · simp [hc, List.dropWhile_cons, List.takeWhile_cons]
    · simp [hc, List.dropWhile_cons, List.takeWhile_cons, ih]

theorem copyElement_length (path out : List Char) :
    (copyElement path out).1.length ≤ path.length := by
  rw [copyElement_eq]
  exact (List.dropWhile_sublist _).length_le

/-- The bound on the iterations of `cleanLoop` is immaterial once it reaches the
length of the path: the loop stops because the path is exhausted. -/
theorem cleanLoop_fuel (rooted : Bool) :
    ∀ (f1 f2 : Nat) (path out : List Char) (dotdot : Nat),
      path.length ≤ f1 → path.length ≤ f2 →
      cleanLoop rooted f1 path out dotdot = cleanLoop rooted f2 path out dotdot := by
  intro f1
  induction f1 with
  | zero =>
    intro f2 path out dotdot h1 _
    have hp : path = [] := List.length_eq_zero.mp (Nat.le_zero.mp h1)
    subst hp
    cases f2 <;> rfl
  | succ f1 ih =>
    intro f2 path out dotdot h1 h2
    cases path with
    | nil => cases f2 <;> rfl
    | cons c rest =>
      cases f2 with
      | zero => simp at h2
      | succ f2 =>
        have hr1 : rest.length ≤ f1 := by simpa using h1
        have hr2 : rest.length ≤ f2 := by simpa using h2
        have hd : (rest.drop 1).length ≤ rest.length := by simp
        have hcopy : ∀ o, (copyElement (c :: rest) o).1.length ≤ rest.length + 1 := by
          intro o
          simpa using copyElement_length (c :: rest) o
        unfold cleanLoop
        by_cases hsep : IsPathSeparator c = true
        · simp only [hsep, if_true]
          exact ih f2 rest out dotdot hr1 hr2
        · simp only [hsep, Bool.false_eq_true, if_false]
          split
          · exact ih f2 rest out dotdot hr1 hr2
          · split
            · split
              · exact ih f2 _ _ _ (by omega) (by omega)
              · split
                · exact ih f2 _ _ _ (by omega) (by omega)
                · exact ih f2 _ _ _ (by omega) (by omega)
            · have hlt : ∀ o, (copyElement (c :: rest) o).1.length ≤ rest.length := by
                intro o
                unfold copyElement
                simp only [hsep, Bool.false_eq_true, if_false]
                exact copyElement_length rest _
              exact ih f2 _ _ _ (le_trans (hlt _) hr1) (le_trans (hlt _) hr2)

theorem cleanLoop_sep (rooted : Bool) (f : Nat) (T out : List Char) (dotdot : Nat)
    (hf : T.length + 1 ≤ f) :
    cleanLoop rooted f ('/' :: T) out dotdot = cleanLoop rooted T.length T out dotdot := by
  obtain ⟨g, rfl⟩ : ∃ g, f = g + 1 := ⟨f - 1, by omega⟩
  have hs : IsPathSeparator '/' = true := rfl
  rw [cleanLoop]
  simp only [hs, if_true]
  exact cleanLoop_fuel rooted _ _ _ _ _ (by omega) (le_refl _)

theorem cleanLoop_dot (rooted : Bool) (f : Nat) (T out : List Char) (dotdot : Nat)
    (hT : atEndOrSeparator T = true) (hf : T.length + 1 ≤ f) :
    cleanLoop rooted f ('.' :: T) out dotdot = cleanLoop rooted T.length T out dotdot := by
  obtain ⟨g, rfl⟩ : ∃ g, f = g + 1 := ⟨f - 1, by omega⟩
  have hs : IsPathSeparator '.' = false := rfl
  rw [cleanLoop]
  simp only [hs, Bool.false_eq_true, if_false, beq_self_eq_true, hT, Bool.and_self, if_true]
  exact cleanLoop_fuel rooted _ _ _ _ _ (by omega) (le_refl _)

theorem slashed_append (cs ds : List (List Char)) :
    slashed (cs ++ ds) = slashed cs ++ slashed ds := by
  induction cs with
  | nil => rfl
  | cons e es ih => simp [slashed, ih]

theorem rootedPath_of_ne_nil {cs : List (List Char)} (h : cs ≠ []) :
    rootedPath cs = slashed cs := by
  cases cs with
  | nil => exact absurd rfl h
  | cons e es => rfl

theorem rootedPath_concat (cs : List (List Char)) (e : List Char) :
    rootedPath (cs ++ [e]) = slashed cs ++ '/' :: e := by
  rw [rootedPath_of_ne_nil (by simp), slashed_append]
  simp [slashed]

theorem rootedPath_length_pos (cs : List (List Char)) : 0 < (rootedPath cs).length := by
  cases cs <;> simp [rootedPath, slashed]

theorem backtrackLoop_element (R : List Char) :
    ∀ (l : List Char) (last : Char), '/' ∉ l → last ≠ '/' →
      backtrackLoop 1 (l ++ '/' :: R) last = if R = [] then ['/'] else R := by
  intro l
  induction l with
  | nil =>
    intro last _ hlast
    have hs : IsPathSeparator last = false := by
      simpa [IsPathSeparator] using hlast
    cases R with
    | nil => simp [backtrackLoop]
    | cons c R' =>
      have hs2 : IsPathSeparator '/' = true := rfl
      simp [backtrackLoop, hs, hs2]
  | cons x l ih =>
    intro last hl hlast
    have hs : IsPathSeparator last = false := by
      simpa [IsPathSeparator] using hlast
    have hx : x ≠ '/' := fun h => hl (by simp [h])
    have hl' : '/' ∉ l := fun h => hl (by simp [h])
    have hlen : (x :: (l ++ '/' :: R)).length > 1 := by simp
    rw [List.cons_append, backtrackLoop]
    simp only [hs, Bool.not_false, Bool.and_true, hlen, decide_True, if_true]
    exact ih x hl' hx

theorem backtrack_rootedPath (cs : List (List Char)) (e : List Char) (he : ProperElement e) :
    backtrack 1 (rootedPath (cs ++ [e])).reverse = (rootedPath cs).reverse := by
  rw [rootedPath_concat]
  obtain ⟨hne, hns, -, -⟩ := he
  have hrev : e.reverse ≠ [] := by simpa using hne
  obtain ⟨last, l, hl⟩ := List.exists_cons_of_ne_nil hrev
  have hmem : ∀ c, c ∈ last :: l → c ∈ e := by
    intro c hc
    rw [← hl] at hc
    exact List.mem_reverse.mp hc
  have hlast : last ≠ '/' := fun h => hns (h ▸ hmem last (by simp))
  have hl' : '/' ∉ l := fun h => hns (hmem '/' (by simp [h]))
  have : (slashed cs ++ '/' :: e).reverse = last :: (l ++ '/' :: (slashed cs).reverse) := by
    simp [hl]
  rw [this]
  simp only [backtrack]
  rw [backtrackLoop_element _ l last hl' hlast]
  cases cs with
  | nil => simp [slashed, rootedPath]
  | cons c cs' =>
    have : (slashed (c :: cs')).reverse ≠ [] := by simp [slashed]
    simp [this, rootedPath]

theorem atEndOrSeparator_iff (T : List Char) :
    atEndOrSeparator T = true ↔ T = [] ∨ ∃ T', T = '/' :: T' := by
  cases T with
  | nil => simp [atEndOrSeparator]
  | cons c T' => simp [atEndOrSeparator, IsPathSeparator]

theorem cleanLoop_dotdot_rooted (f : Nat) (T : List Char) (cs : List (List Char))
    (hcs : ∀ e ∈ cs, ProperElement e) (hT : atEndOrSeparator T = true)
    (hf : T.length + 2 ≤ f) :
    cleanLoop true f ('.' :: '.' :: T) (rootedPath cs).reverse 1
      = cleanLoop true T.length T (rootedPath cs.dropLast).reverse 1 := by
  obtain ⟨g, rfl⟩ : ∃ g, f = g + 1 := ⟨f - 1, by omega⟩
  have hs : IsPathSeparator '.' = false := rfl
  have h2 : atEndOrSeparator ('.' :: T) = false := rfl
  rw [cleanLoop]
  simp only [hs, Bool.false_eq_true, if_false, h2, Bool.and_false, List.head?_cons,
    beq_self_eq_true, List.drop_succ_cons, List.drop_zero, hT, Bool.and_self, if_true,
    Bool.not_true]
  rcases List.eq_nil_or_concat cs with hnil | ⟨cs0, e, hcat⟩
  · subst hnil
    have : ¬ ((rootedPath []).reverse.length > 1) := by simp [rootedPath]
    simp only [this, if_false, List.dropLast_nil]
    exact cleanLoop_fuel true _ _ _ _ _ (by omega) (le_refl _)
  · subst hcat
    rw [List.concat_eq_append] at hcs
    have he : ProperElement e := hcs e (by simp)
    have hlen : (rootedPath (cs0 ++ [e])).reverse.length > 1 := by
      have h0 : 0 < e.length := List.length_pos.mpr he.1
      rw [rootedPath_concat]
      simp only [List.length_reverse, List.length_append, List.length_cons]
      omega
    simp only [List.concat_eq_append, hlen, if_true, List.dropLast_concat]
    rw [backtrack_rootedPath cs0 e he]
    exact cleanLoop_fuel true _ _ _ _ _ (by omega) (le_refl _)

theorem takeWhile_element (e T : List Char) (he : '/' ∉ e) (hT : atEndOrSeparator T = true) :
    (e ++ T).takeWhile (fun c => !IsPathSeparator c) = e
    ∧ (e ++ T).dropWhile (fun c => !IsPathSeparator c) = T := by
  induction e with
  | nil =>
    rcases (atEndOrSeparator_iff T).mp hT with h | ⟨T', h⟩
    · subst h
      simp
    · subst h
      simp [IsPathSeparator]
  | cons x e ih =>
    have hx : x ≠ '/' := fun h => he (by simp [h])
    have he' : '/' ∉ e := fun h => he (by simp [h])
    have hs : IsPathSeparator x = false := by simpa [IsPathSeparator] using hx
    obtain ⟨h1, h2⟩ := ih he'
    simp [List.takeWhile_cons, List.dropWhile_cons, hs, h1, h2]

theorem cleanLoop_element_rooted (f : Nat) (e T : List Char) (cs : List (List Char))
    (hcs : ∀ e ∈ cs, ProperElement e) (he : ProperElement e)
    (hT : atEndOrSeparator T = true) (hf : (e ++ T).length ≤ f) :
    cleanLoop true f (e ++ T) (rootedPath cs).reverse 1
      = cleanLoop true T.length T (rootedPath (cs ++ [e])).reverse 1 := by
  obtain ⟨hne, hns, hd, hdd⟩ := he
  obtain ⟨x, e', rfl⟩ := List.exists_cons_of_ne_nil hne
  have hf' : (e' ++ T).length + 1 ≤ f := by simpa using hf
  obtain ⟨g, rfl⟩ : ∃ g, f = g + 1 := ⟨f - 1, by omega⟩
  have hx : x ≠ '/' := fun h => hns (by simp [h])
  have hs : IsPathSeparator x = false := by simpa [IsPathSeparator] using hx
  have he' : '/' ∉ e' := fun h => hns (by simp [h])
  -- the "." case does not apply
  have c2 : (x == '.' && atEndOrSeparator (e' ++ T)) = false := by
    by_cases hxd : x = '.'
    · subst hxd
      cases e' with
      | nil => exact absurd rfl hd
      | cons y e'' =>
        have hy : y ≠ '/' := fun h => he' (by simp [h])
        simp [atEndOrSeparator, IsPathSeparator, hy]
    · simp [hxd]
  -- the ".." case does not apply
  have c3 : (x == '.' && (e' ++ T).head? == some '.'
      && atEndOrSeparator ((e' ++ T).drop 1)) = false := by
    by_cases hxd : x = '.'
    · subst hxd
      cases e' with
      | nil => exact absurd rfl hd
      | cons y e'' =>
        by_cases hyd : y = '.'
        · subst hyd
          cases e'' with
          | nil => exact absurd rfl hdd
          | cons z e3 =>
            have hz : z ≠ '/' := fun h => he' (by simp [h])
            simp [atEndOrSeparator, IsPathSeparator, hz]
        · simp [hyd]
    · simp [hxd]
  rw [List.cons_append, cleanLoop]
  simp only [hs, Bool.false_eq_true, if_false, c2, c3]
  rw [copyElement_eq, ← List.cons_append]
  obtain ⟨ht, hdw⟩ := takeWhile_element (x :: e') T hns hT
  simp only [ht, hdw]
  have hout : (x :: e').reverse ++
      (if (true && (rootedPath cs).reverse.length != 1
            || !true && (rootedPath cs).reverse.length != 0) = true
        then '/' :: (rootedPath cs).reverse else (rootedPath cs).reverse)
      = (rootedPath (cs ++ [x :: e'])).reverse := by
    rw [rootedPath_concat]
    cases cs with
    | nil => simp [rootedPath, slashed]
    | cons c cs' =>
      have hc : 0 < c.length := List.length_pos.mpr (hcs c (by simp)).1
      have hl : (slashed (c :: cs')).length ≠ 1 := by
        simp only [slashed, List.length_cons, List.length_append]
        omega
      simp [hl, rootedPath]
  rw [hout]
  exact cleanLoop_fuel true _ _ _ _ _ (by simp at hf'; omega) (le_refl _)

/-- Every path is an element without separator followed by a rest that is
empty or starts with a separator. -/
theorem path_split (path : List Char) :
    ∃ e T, path = e ++ T ∧ '/' ∉ e ∧ atEndOrSeparator T = true := by
  induction path with
  | nil => exact ⟨[], [], rfl, by simp, rfl⟩
  | cons c rest ih =>
    by_cases hc : c = '/'
    · exact ⟨[], c :: rest, rfl, by simp, by simp [atEndOrSeparator, IsPathSeparator, hc]⟩
    · obtain ⟨e, T, hp, he, hT⟩ := ih
      refine ⟨c :: e, T, by simp [hp], ?_, hT⟩
      intro hmem
      rcases List.mem_cons.mp hmem with h | h
      · exact hc h.symm
      · exact he h

/-- Normal form: from a buffer that holds a clean rooted path, the loop of
`Clean` ends with a buffer that holds a clean rooted path. -/
theorem cleanLoop_rooted_normal :
    ∀ (n : Nat) (path : List Char), path.length ≤ n →
      ∀ cs : List (List Char), (∀ e ∈ cs, ProperElement e) →
      ∃ cs', (∀ e ∈ cs', ProperElement e)
        ∧ cleanLoop true path.length path (rootedPath cs).reverse 1
            = (rootedPath cs').reverse := by
  intro n
  induction n with
  | zero =>
    intro path hlen cs hcs
    have hp : path = [] := List.length_eq_zero.mp (Nat.le_zero.mp hlen)
    subst hp
    exact ⟨cs, hcs, rfl⟩
  | succ n ih =>
    intro path hlen cs hcs
    obtain ⟨e, T, hp, he, hT⟩ := path_split path
    subst hp
    cases e with
    | nil =>
      rcases (atEndOrSeparator_iff T).mp hT with h | ⟨T', h⟩
      · subst h
        exact ⟨cs, hcs, rfl⟩
      · subst h
        obtain ⟨cs', hcs', heq⟩ := ih T' (by simpa using hlen) cs hcs
        refine ⟨cs', hcs', ?_⟩
        rw [List.nil_append, cleanLoop_sep true _ T' _ 1 (by simp)]
        exact heq
    | cons x e' =>
      have hTlen : T.length ≤ n := by
        simp only [List.cons_append, List.length_cons, List.length_append] at hlen
        omega
      by_cases hd : x :: e' = ['.']
      · obtain ⟨cs', hcs', heq⟩ := ih T hTlen cs hcs
        refine ⟨cs', hcs', ?_⟩
        rw [hd]
        show cleanLoop true (['.'] ++ T).length ('.' :: T) _ 1 = _
        rw [cleanLoop_dot true _ T _ 1 hT (by simp)]
        exact heq
      · by_cases hdd : x :: e' = ['.', '.']
        · have hdrop : ∀ e ∈ cs.dropLast, ProperElement e :=
            fun e h => hcs e (List.dropLast_subset cs h)
          obtain ⟨cs', hcs', heq⟩ := ih T hTlen cs.dropLast hdrop
          refine ⟨cs', hcs', ?_⟩
          rw [hdd]
          show cleanLoop true (['.', '.'] ++ T).length ('.' :: '.' :: T) _ 1 = _
          rw [cleanLoop_dotdot_rooted _ T cs hcs hT (by simp)]
          exact heq
        · have hprop : ProperElement (x :: e') := ⟨by simp, he, hd, hdd⟩
          have hall : ∀ e ∈ cs ++ [x :: e'], ProperElement e := by
            intro e hmem
            rcases List.mem_append.mp hmem with h | h
            · exact hcs e h
            · rw [List.mem_singleton.mp h]
              exact hprop
          obtain ⟨cs', hcs', heq⟩ := ih T hTlen (cs ++ [x :: e']) hall
          refine ⟨cs', hcs', ?_⟩
          rw [cleanLoop_element_rooted _ (x :: e') T cs hcs hprop hT (le_refl _)]
          exact heq

/-- Fixed point: the loop of `Clean` copies a clean tail "/e1/.../en" as it is. -/
theorem cleanLoop_rooted_slashed (J : List Char) (hJ : atEndOrSeparator J = true) :
    ∀ (cs2 cs1 : List (List Char)), (∀ e ∈ cs1, ProperElement e) →
      (∀ e ∈ cs2, ProperElement e) →
      cleanLoop true (slashed cs2 ++ J).length (slashed cs2 ++ J) (rootedPath cs1).reverse 1
        = cleanLoop true J.length J (rootedPath (cs1 ++ cs2)).reverse 1 := by
  intro cs2
  induction cs2 with
  | nil =>
    intro cs1 _ _
    simp [slashed]
  | cons e es ih =>
    intro cs1 h1 h2
    have he : ProperElement e := h2 e (by simp)
    have hes : ∀ e ∈ es, ProperElement e := fun x hx => h2 x (by simp [hx])
    have hall : ∀ x ∈ cs1 ++ [e], ProperElement x := by
      intro x hmem
      rcases List.mem_append.mp hmem with h | h
      · exact h1 x h
      · rw [List.mem_singleton.mp h]
        exact he
    have hT : atEndOrSeparator (slashed es ++ J) = true := by
      cases es with
      | nil => simpa [slashed] using hJ
      | cons a as => rfl
    have hshape : slashed (e :: es) ++ J = '/' :: (e ++ (slashed es ++ J)) := by
      simp [slashed]
    rw [hshape, cleanLoop_sep true _ _ _ 1 (by simp),
      cleanLoop_element_rooted _ e _ cs1 h1 he hT (le_refl _), ih (cs1 ++ [e]) hall hes]
    simp

/-! ### Clean, Rel and Join on rooted paths -/

/-- Clean of a rooted path is a clean rooted path: "/" followed by proper
elements separated by single separators. -/
theorem cleanChars_rooted_normal (rest : List Char) :
    ∃ cs, (∀ e ∈ cs, ProperElement e) ∧ cleanChars ('/' :: rest) = rootedPath cs := by
  obtain ⟨cs, hcs, heq⟩ := cleanLoop_rooted_normal rest.length rest (le_refl _) []
    (by simp)
  refine ⟨cs, hcs, ?_⟩
  have hs : IsPathSeparator '/' = true := rfl
  have hfuel : cleanLoop true ('/' :: rest).length rest ['/'] 1
      = cleanLoop true rest.length rest (rootedPath []).reverse 1 :=
    cleanLoop_fuel true _ _ _ _ _ (by simp) (le_refl _)
  have hpos := rootedPath_length_pos cs
  have hne : ¬ ((rootedPath cs).length = 0) := by omega
  simp only [cleanChars, hs, if_true, hfuel, heq, List.length_reverse, beq_iff_eq, hne,
    if_false, List.reverse_reverse]

theorem cleanLoop_trailing (J out : List Char) (hJ : J = [] ∨ J = ['/', '.']) :
    cleanLoop true J.length J out 1 = out := by
  rcases hJ with h | h
  · subst h
    rfl
  · subst h
    rw [cleanLoop_sep true _ ['.'] _ 1 (by simp), cleanLoop_dot true _ [] _ 1 rfl (by simp)]
    rfl

/-- Clean leaves a clean rooted path followed by clean elements as it is, and
drops a trailing "/.". -/
theorem cleanChars_rootedPath_append (as cs : List (List Char)) (J : List Char)
    (has : ∀ e ∈ as, ProperElement e) (hcs : ∀ e ∈ cs, ProperElement e)
    (hJ : J = [] ∨ J = ['/', '.']) :
    cleanChars (rootedPath as ++ (slashed cs ++ J)) = rootedPath (as ++ cs) := by
  have hs : IsPathSeparator '/' = true := rfl
  have hJ' : atEndOrSeparator J = true := by
    rcases hJ with h | h <;> subst h <;> rfl
  have hfin : ∀ ds : List (List Char),
      (if ((rootedPath ds).reverse.length == 0) = true then ['.']
        else (rootedPath ds).reverse).reverse = rootedPath ds := by
    intro ds
    have hpos := rootedPath_length_pos ds
    have hne : ¬ ((rootedPath ds).length = 0) := by omega
    simp only [List.length_reverse, beq_iff_eq, hne, if_false, List.reverse_reverse]
  cases as with
  | nil =>
    have hfuel : cleanLoop true ('/' :: (slashed cs ++ J)).length (slashed cs ++ J) ['/'] 1
        = cleanLoop true (slashed cs ++ J).length (slashed cs ++ J)
            (rootedPath []).reverse 1 :=
      cleanLoop_fuel true _ _ _ _ _ (by simp) (le_refl _)
    show cleanChars ('/' :: (slashed cs ++ J)) = _
    simp only [cleanChars, hs, if_true, hfuel]
    rw [cleanLoop_rooted_slashed J hJ' cs [] (by simp) hcs, cleanLoop_trailing J _ hJ]
    exact hfin _
  | cons a as' =>
    have ha : ProperElement a := has a (by simp)
    have has' : ∀ e ∈ as' ++ cs, ProperElement e := by
      intro e hmem
      rcases List.mem_append.mp hmem with h | h
      · exact has e (by simp [h])
      · exact hcs e h
    have hshape : rootedPath (a :: as') ++ (slashed cs ++ J)
        = '/' :: (a ++ (slashed (as' ++ cs) ++ J)) := by
      simp [rootedPath, slashed, slashed_append]
    have hT : atEndOrSeparator (slashed (as' ++ cs) ++ J) = true := by
      cases h : as' ++ cs with
      | nil => simpa [slashed] using hJ'
      | cons x xs => rfl
    have hfuel : cleanLoop true ('/' :: (a ++ (slashed (as' ++ cs) ++ J))).length
          (a ++ (slashed (as' ++ cs) ++ J)) ['/'] 1
        = cleanLoop true (a ++ (slashed (as' ++ cs) ++ J)).length
            (a ++ (slashed (as' ++ cs) ++ J)) (rootedPath []).reverse 1 :=
      cleanLoop_fuel true _ _ _ _ _ (by simp) (le_refl _)
    rw [hshape]
    simp only [cleanChars, hs, if_true, hfuel]
    rw [cleanLoop_element_rooted _ a _ [] (by simp) ha hT (le_refl _),
      cleanLoop_rooted_slashed J hJ' (as' ++ cs) ([] ++ [a]) (by simpa using ha) has',
      cleanLoop_trailing J _ hJ]
    exact hfin _

/-- Clean is the identity on a clean rooted path. -/
theorem cleanChars_rootedPath (cs : List (List Char)) (hcs : ∀ e ∈ cs, ProperElement e) :
    cleanChars (rootedPath cs) = rootedPath cs := by
  have h := cleanChars_rootedPath_append cs [] [] hcs (by simp) (Or.inl rfl)
  simpa [slashed] using h

/-- The bound on the iterations of `relLoop` is immaterial once it exceeds the
number of bytes of the base that are left: every iteration that does not leave
the loop moves `bi` forward. -/
theorem relLoop_fuel (base targ : List Char) :
    ∀ (f1 f2 b0 bi t0 ti : Nat), base.length - bi < f1 → base.length - bi < f2 →
      relLoop base targ f1 b0 bi t0 ti = relLoop base targ f2 b0 bi t0 ti := by
  intro f1
  induction f1 with
  | zero =>
    intro f2 b0 bi t0 ti h1 _
    exact absurd h1 (Nat.not_lt_zero _)
  | succ f1 ih =>
    intro f2 b0 bi t0 ti h1 h2
    cases f2 with
    | zero => exact absurd h2 (Nat.not_lt_zero _)
    | succ f2 =>
      unfold relLoop
      by_cases hcond : (decide (bi < base.length) && decide (ti < targ.length)) = true
      · have hbi : bi < base.length := by
          simp only [Bool.and_eq_true, decide_eq_true_eq] at hcond
          exact hcond.1
        have hscan : bi ≤ scanElement base bi := Nat.le_add_right _ _
        simp only [hcond, if_true]
        split
        · rfl
        · apply ih
          · split <;> omega
          · split <;> omega
      · simp only [hcond, Bool.false_eq_true, if_false]

theorem relLoop_root (X : List Char) :
    relLoop ['/'] ('/' :: X) 2 0 0 0 0 = (1, 1, 1, 1) := by
  have h1 : scanElement ['/'] 0 = 0 := by decide
  have h2 : scanElement ('/' :: X) 0 = 0 := by simp [scanElement]
  have h3 : slice ('/' :: X) 0 0 = [] := by simp [slice]
  have h4 : slice ['/'] 0 0 = [] := by decide
  simp [relLoop, h1, h2, h3, h4]

/-- Rel of a clean rooted path to the root: the path without its leading
separator, and "." for the root itself. -/
theorem relChars_root (cs : List (List Char)) (hcs : ∀ e ∈ cs, ProperElement e) :
    relChars ['/'] (rootedPath cs) = some (relativePath cs) := by
  have hbase : cleanChars ['/'] = ['/'] := by decide
  unfold relChars
  simp only [hbase, cleanChars_rootedPath cs hcs]
  cases cs with
  | nil => simp [rootedPath, relativePath]
  | cons e es =>
    have he : 0 < e.length := List.length_pos.mpr (hcs e (by simp)).1
    have hshape : rootedPath (e :: es) = '/' :: (e ++ slashed es) := rfl
    have hne : ('/' :: (e ++ slashed es) == ['/']) = false := by
      have : '/' :: (e ++ slashed es) ≠ ['/'] := by
        intro h
        have hl := congrArg List.length h
        simp only [List.length_cons, List.length_append, List.length_nil] at hl
        omega
      simpa using this
    have hdot : ((['/'] : List Char) == ['.']) = false := by decide
    have hslice : slice ['/'] 1 1 = [] := by decide
    have hlen : (['/'] : List Char).length + 1 = 2 := rfl
    simp only [hshape, hne, hdot, Bool.false_eq_true, if_false, hlen, relLoop_root, hslice]
    simp [relativePath]

/-! ### The path opened by getPluginAssets -/

theorem pathElements_slashed (es : List (List Char)) (hes : ∀ e ∈ es, '/' ∉ e) :
    ∀ e : List Char, '/' ∉ e → pathElements (e ++ slashed es) = e :: es := by
  induction es with
  | nil =>
    intro e he
    induction e with
    | nil => simp [slashed, pathElements]
    | cons x e ih =>
      have hx : x ≠ '/' := fun h => he (by simp [h])
      have he' : '/' ∉ e := fun h => he (by simp [h])
      have := ih he'
      simp only [slashed, List.append_nil] at this ⊢
      simp [pathElements, hx, this]
  | cons a as ih =>
    intro e he
    have ha : '/' ∉ a := hes a (by simp)
    have has : ∀ e ∈ as, '/' ∉ e := fun x hx => hes x (by simp [hx])
    induction e with
    | nil =>
      have := ih has a ha
      simp [slashed, pathElements, this]
    | cons x e ihe =>
      have hx : x ≠ '/' := fun h => he (by simp [h])
      have he' : '/' ∉ e := fun h => he (by simp [h])
      have := ihe he'
      simp [pathElements, hx, this]

theorem relativePath_no_dotdot (cs : List (List Char)) (hcs : ∀ e ∈ cs, ProperElement e) :
    ['.', '.'] ∉ pathElements (relativePath cs) := by
  cases cs with
  | nil => decide
  | cons e es =>
    have h := pathElements_slashed es (fun x hx => (hcs x (by simp [hx])).2.1) e
      (hcs e (by simp)).2.1
    simp only [relativePath, h]
    intro hmem
    exact (hcs _ hmem).2.2.2 rfl

theorem relativePath_head (cs : List (List Char)) (hcs : ∀ e ∈ cs, ProperElement e) :
    (relativePath cs).head? ≠ some '/' := by
  cases cs with
  | nil => decide
  | cons e es =>
    obtain ⟨hne, hns, -, -⟩ := hcs e (by simp)
    obtain ⟨x, e', rfl⟩ := List.exists_cons_of_ne_nil hne
    have hx : x ≠ '/' := fun h => hns (by simp [h])
    simpa [relativePath] using hx

/-- Clean of an absolute path. -/
theorem Clean_of_IsAbs (path : String) (h : IsAbs path = true) :
    ∃ cs, (∀ e ∈ cs, ProperElement e) ∧ Clean path = ⟨rootedPath cs⟩ := by
  have hd : ∃ rest, path.data = '/' :: rest := by
    unfold IsAbs at h
    cases hp : path.data with
    | nil => simp [hp] at h
    | cons c rest =>
      simp [hp] at h
      exact ⟨rest, by rw [h]⟩
  obtain ⟨rest, hrest⟩ := hd
  obtain ⟨cs, hcs, heq⟩ := cleanChars_rooted_normal rest
  exact ⟨cs, hcs, by simp [Clean, hrest, heq]⟩

/-- The result of `Abs` is a clean rooted path when the working directory is
absolute. -/
theorem Abs_rooted (getwd : Except GoError String) (path absPath : String)
    (hwd : ∀ wd, getwd = .ok wd → IsAbs wd = true) (h : Abs getwd path = .ok absPath) :
    ∃ cs, (∀ e ∈ cs, ProperElement e) ∧ absPath = ⟨rootedPath cs⟩ := by
  unfold Abs at h
  by_cases hp : IsAbs path = true
  · simp only [hp, if_true, Except.ok.injEq] at h
    obtain ⟨cs, hcs, heq⟩ := Clean_of_IsAbs path hp
    exact ⟨cs, hcs, by rw [← h, heq]⟩
  · simp only [hp, Bool.false_eq_true, if_false] at h
    cases hg : getwd with
    | error err => simp [hg] at h
    | ok wd =>
      simp only [hg, Except.ok.injEq] at h
      have hw := hwd wd hg
      have hne : (wd != "") = true := by
        have : wd ≠ "" := by
          intro h0
          rw [h0] at hw
          exact absurd hw (by decide)
        simpa using this
      have hj : IsAbs (stringsJoin "/" [wd, path]) = true := by
        unfold IsAbs at hw ⊢
        cases hd : wd.data with
        | nil => simp [hd] at hw
        | cons c rest =>
          simp [hd] at hw
          simp [stringsJoin, String.data_append, hd, hw]
      obtain ⟨cs, hcs, heq⟩ := Clean_of_IsAbs _ hj
      refine ⟨cs, hcs, ?_⟩
      rw [← h]
      simp only [Join, hne, if_true]
      exact heq

theorem string_ne_empty_of_data {s : String} {c : Char} {l : List Char}
    (h : s.data = c :: l) : (s != "") = true := by
  have : s ≠ "" := by
    intro h0
    rw [h0] at h
    exact absurd h (by simp)
  simpa using this

/-- Join of a clean rooted directory and a clean relative path. -/
theorem Join_rooted_relative (as cs : List (List Char))
    (has : ∀ e ∈ as, ProperElement e) (hcs : ∀ e ∈ cs, ProperElement e) :
    Join [⟨rootedPath as⟩, ⟨relativePath cs⟩] = ⟨rootedPath (as ++ cs)⟩ := by
  have hpos := rootedPath_length_pos as
  obtain ⟨x, l, hx⟩ : ∃ x l, rootedPath as = x :: l := by
    cases h : rootedPath as with
    | nil => simp [h] at hpos
    | cons x l => exact ⟨x, l, rfl⟩
  have hne : ((⟨rootedPath as⟩ : String) != "") = true :=
    string_ne_empty_of_data (s := ⟨rootedPath as⟩) hx
  have hdata : (stringsJoin "/" [(⟨rootedPath as⟩ : String), ⟨relativePath cs⟩]).data
      = rootedPath as ++ '/' :: relativePath cs := by
    simp [stringsJoin, String.data_append]
  simp only [Join, hne, if_true, Clean, hdata]
  congr 1
  cases cs with
  | nil =>
    have h := cleanChars_rootedPath_append as [] ['/', '.'] has (by simp) (Or.inr rfl)
    simpa [slashed, relativePath] using h
  | cons e es =>
    have h := cleanChars_rootedPath_append as (e :: es) [] has hcs (Or.inl rfl)
    simpa [slashed, relativePath] using h

/-- C3 (amended): for every value of the "*" route parameter, the relative path
rel = Rel("/", Clean(Join("/", w))) is computed without error, is a relative
path and has no ".." element; and when the plugin is installed and Abs yields
absPluginDir, the handler opens pluginFilePath = Join(absPluginDir, rel), which
is absPluginDir itself, or absPluginDir followed by a separator and rel, or,
when absPluginDir is the root "/", the root followed by rel.  The handler opens
no other file: every path it opens is such a Join(absPluginDir, rel).  The
working directory reported by the operating system is an absolute path. -/
theorem getPluginAssets_confined (getwd : Except GoError String) (hs : HTTPServer)
    (c : ReqContext) (hwd : ∀ wd, getwd = .ok wd → IsAbs wd = true) :
    ∃ rel, Rel "/" (Clean (Join ["/", c.Params "*"])) = .ok rel
      ∧ IsAbs rel = false
      ∧ ['.', '.'] ∉ pathElements rel.data
      ∧ (∀ plugin absPluginDir,
          hs.pluginStore.Plugin (c.Params ":pluginId") = some plugin →
          Abs getwd plugin.PluginDir = .ok absPluginDir →
          getPluginAssets getwd hs c = .Open (Join [absPluginDir, rel])
          ∧ (Join [absPluginDir, rel] = absPluginDir
            ∨ (hasPrefix (Join [absPluginDir, rel]) (absPluginDir ++ "/") = true
                ∧ Join [absPluginDir, rel] = absPluginDir ++ "/" ++ rel)
            ∨ (absPluginDir = "/" ∧ Join [absPluginDir, rel] = "/" ++ rel)))
      ∧ (∀ pluginFilePath, getPluginAssets getwd hs c = .Open pluginFilePath →
          ∃ plugin absPluginDir,
            hs.pluginStore.Plugin (c.Params ":pluginId") = some plugin
            ∧ Abs getwd plugin.PluginDir = .ok absPluginDir
            ∧ pluginFilePath = Join [absPluginDir, rel]) := by
  -- the requested file is a clean rooted path
  have hjoin : Join ["/", c.Params "*"] = Clean (stringsJoin "/" ["/", c.Params "*"]) := by
    have : (("/" : String) != "") = true := by decide
    simp only [Join, this, if_true]
  have habs : IsAbs (stringsJoin "/" ["/", c.Params "*"]) = true := by
    simp [IsAbs, stringsJoin, String.data_append]
  obtain ⟨cs, hcs, hclean⟩ := Clean_of_IsAbs _ habs
  have hreq : Clean (Join ["/", c.Params "*"]) = ⟨rootedPath cs⟩ := by
    rw [hjoin, hclean]
    simp only [Clean, cleanChars_rootedPath cs hcs]
  have hrel : Rel "/" (Clean (Join ["/", c.Params "*"])) = .ok ⟨relativePath cs⟩ := by
    have hroot : ("/" : String).data = ['/'] := rfl
    rw [hreq]
    simp only [Rel, hroot, relChars_root cs hcs]
  refine ⟨⟨relativePath cs⟩, hrel, ?_, relativePath_no_dotdot cs hcs, ?_, ?_⟩
  · have := relativePath_head cs hcs
    simpa [IsAbs] using this
  rotate_left
  · intro pluginFilePath hopen
    cases hplugin : hs.pluginStore.Plugin (c.Params ":pluginId") with
    | none => simp [getPluginAssets, hplugin] at hopen
    | some plugin =>
      cases habsdir : Abs getwd plugin.PluginDir with
      | error err => simp [getPluginAssets, hplugin, hrel, habsdir] at hopen
      | ok absPluginDir =>
        simp only [getPluginAssets, hplugin, hrel, habsdir, AssetsOutcome.Open.injEq] at hopen
        exact ⟨plugin, absPluginDir, rfl, habsdir, hopen.symm⟩
  · intro plugin absPluginDir hplugin habsdir
    obtain ⟨as, has, hdir⟩ := Abs_rooted getwd _ _ hwd habsdir
    refine ⟨?_, ?_⟩
    · simp only [getPluginAssets, hplugin, hrel, habsdir]
    · subst hdir
      rw [Join_rooted_relative as cs has hcs]
      cases cs with
      | nil => exact Or.inl (by simp)
      | cons e es =>
        cases as with
        | nil =>
          refine Or.inr (Or.inr ⟨rfl, ?_⟩)
          apply String.ext
          simp [rootedPath, relativePath, slashed, String.data_append]
        | cons a as' =>
          have heq : (⟨rootedPath (a :: as' ++ e :: es)⟩ : String)
              = ⟨rootedPath (a :: as')⟩ ++ "/" ++ ⟨relativePath (e :: es)⟩ := by
            apply String.ext
            simp [rootedPath, relativePath, slashed, slashed_append, String.data_append]
          refine Or.inr (Or.inl ⟨?_, heq⟩)
          rw [heq]
          simp [hasPrefix, String.data_append]


/-- Worked instance of C3 (amended): a request with ".." elements for a file of
the plugin "clock" stays below the plugin directory. -/
theorem getPluginAssets_confined_witness :
    (∀ wd, (Except.ok "/srv" : Except GoError String) = .ok wd → IsAbs wd = true)
    ∧ getPluginAssets (.ok "/srv") sampleServer traversalRequest
        = .Open "/var/lib/plugins/clock/etc/passwd"
    ∧ ∃ rel, Rel "/" (Clean (Join ["/", traversalRequest.Params "*"])) = .ok rel
      ∧ IsAbs rel = false
      ∧ ['.', '.'] ∉ pathElements rel.data
      ∧ (∀ plugin absPluginDir,
          sampleServer.pluginStore.Plugin (traversalRequest.Params ":pluginId") = some plugin →
          Abs (.ok "/srv") plugin.PluginDir = .ok absPluginDir →
          getPluginAssets (.ok "/srv") sampleServer traversalRequest
            = .Open (Join [absPluginDir, rel])
          ∧ (Join [absPluginDir, rel] = absPluginDir
            ∨ (hasPrefix (Join [absPluginDir, rel]) (absPluginDir ++ "/") = true
                ∧ Join [absPluginDir, rel] = absPluginDir ++ "/" ++ rel)
            ∨ (absPluginDir = "/" ∧ Join [absPluginDir, rel] = "/" ++ rel)))
      ∧ (∀ pluginFilePath,
          getPluginAssets (.ok "/srv") sampleServer traversalRequest = .Open pluginFilePath →
          ∃ plugin absPluginDir,
            sampleServer.pluginStore.Plugin (traversalRequest.Params ":pluginId") = some plugin
            ∧ Abs (.ok "/srv") plugin.PluginDir = .ok absPluginDir
            ∧ pluginFilePath = Join [absPluginDir, rel]) :=
  ⟨fun wd h => by cases h; rfl, by decide,
    getPluginAssets_confined (.ok "/srv") sampleServer traversalRequest
      (fun wd h => by cases h; rfl)⟩

/-- C3 as stated fails for a plugin whose directory is the root: the file "a"
of such a plugin is opened at "/a", which is neither absPluginDir = "/" itself
nor a path with the prefix "//" (absPluginDir followed by a separator). -/
theorem getPluginAssets_prefix_counterexample :
    Abs (.ok "/srv") rootDirPlugin.PluginDir = .ok "/"
    ∧ getPluginAssets (.ok "/srv") rootDirServer rootedAssetRequest = .Open "/a"
    ∧ ("/a" : String) ≠ "/"
    ∧ hasPrefix "/a" ("/" ++ "/") = false :=
  ⟨rfl, by decide, by decide, by decide⟩

/-- Go `errors.As` finds a `plugins.NotFoundError` exactly when the unwrap chain
holds one. -/
theorem errorsAs_notFound_isSome (err : GoError) :
    (errorsAs asNotFoundError err).isSome = true ↔ ∃ id, .NotFoundError id ∈ err.chain := by
  rw [errorsAs_eq_findSome]
  induction err.chain with
  | nil => simp
  | cons v rest ih =>
    cases v <;> simp [List.findSome?, asNotFoundError, ih]

/-- C6: GetPluginMarkdown falls back to the readme.  When the first lookup
succeeds with empty content, the response is the content of the lookup for the
name "readme" with status 200 and Content-Type "text/plain; charset=utf-8", and
501 if that second lookup fails; when the first lookup returns non-empty content
that content is returned unchanged with status 200 and no second lookup is
made; a NotFoundError from the first lookup yields 404 and any other error 500.
The first lookup succeeds with empty content when the plugin exists and there
is no file for the upper-cased or the lower-cased name. -/
theorem GetPluginMarkdown_fallback (ToUpper ToLower : String → String) (fs : FileSystem)
    (hs : HTTPServer) (c : ReqContext) :
    (∀ content,
        pluginMarkdown ToUpper ToLower fs hs (c.Params ":pluginId") (c.Params ":name")
          = .ok content →
        content.length = 0 →
        (∀ readme,
            pluginMarkdown ToUpper ToLower fs hs (c.Params ":pluginId") "readme" = .ok readme →
            GetPluginMarkdown ToUpper ToLower fs hs c
              = (.Respond 200 readme [("Content-Type", "text/plain; charset=utf-8")],
                 [c.Params ":name", "readme"]))
        ∧ (∀ err,
            pluginMarkdown ToUpper ToLower fs hs (c.Params ":pluginId") "readme" = .error err →
            (GetPluginMarkdown ToUpper ToLower fs hs c).1.status = 501))
    ∧ (∀ content,
        pluginMarkdown ToUpper ToLower fs hs (c.Params ":pluginId") (c.Params ":name")
          = .ok content →
        content.length ≠ 0 →
        GetPluginMarkdown ToUpper ToLower fs hs c
          = (.Respond 200 content [("Content-Type", "text/plain; charset=utf-8")],
             [c.Params ":name"]))
    ∧ (∀ err,
        pluginMarkdown ToUpper ToLower fs hs (c.Params ":pluginId") (c.Params ":name")
          = .error err →
        ((∃ id, .NotFoundError id ∈ err.chain) →
          (GetPluginMarkdown ToUpper ToLower fs hs c).1.status = 404)
        ∧ ((¬ ∃ id, .NotFoundError id ∈ err.chain) →
          (GetPluginMarkdown ToUpper ToLower fs hs c).1.status = 500))
    ∧ (∀ plugin, hs.pluginStore.Plugin (c.Params ":pluginId") = some plugin →
        fs.Exists (Join [plugin.PluginDir, mdFilepath (ToUpper (c.Params ":name"))])
          = .ok false →
        fs.Exists (Join [plugin.PluginDir, mdFilepath (ToLower (c.Params ":name"))])
          = .ok false →
        pluginMarkdown ToUpper ToLower fs hs (c.Params ":pluginId") (c.Params ":name")
          = .ok "") := by
  refine ⟨?_, ?_, ?_, ?_⟩
  · intro content hfirst hlen
    refine ⟨?_, ?_⟩
    · intro readme hsecond
      simp [GetPluginMarkdown, hfirst, hlen, hsecond, Response.SetHeader]
    · intro err hsecond
      simp [GetPluginMarkdown, hfirst, hlen, hsecond, Response.status]
  · intro content hfirst hlen
    simp [GetPluginMarkdown, hfirst, hlen, Response.SetHeader]
  · intro err hfirst
    have hiff := errorsAs_notFound_isSome err
    refine ⟨?_, ?_⟩
    · intro hnf
      have hsome := hiff.mpr hnf
      obtain ⟨id, hid⟩ := Option.isSome_iff_exists.mp hsome
      simp [GetPluginMarkdown, hfirst, hid, Response.status]
    · intro hnf
      have hnone : errorsAs asNotFoundError err = none := by
        cases h : errorsAs asNotFoundError err with
        | none => rfl
        | some id => exact absurd (hiff.mp (by simp [h])) hnf
      simp [GetPluginMarkdown, hfirst, hnone, Response.status]
  · intro plugin hplugin hupper hlower
    simp [pluginMarkdown, hplugin, hupper, hlower]

/-- Worked instance of C6: the plugin "clock" has no changelog, so the readme
is served after a second lookup. -/
theorem GetPluginMarkdown_fallback_witness :
    GetPluginMarkdown sampleToUpper sampleToLower sampleFiles sampleServer changelogRequest
      = (.Respond 200 "# Clock" [("Content-Type", "text/plain; charset=utf-8")],
         ["changelog", "readme"]) :=
  ((GetPluginMarkdown_fallback sampleToUpper sampleToLower sampleFiles sampleServer
    changelogRequest).1 "" rfl (by decide)).1 "# Clock" rfl

end Grafana
